import Mathlib

/-!
Formal model of the open-research session runtime (Python backend under
`backend/app`), embedded shallowly in Lean 4.

Conventions of the embedding:
* Python functions become Lean functions; a Python function that can raise
  becomes an `Except`-valued function whose `.error` branches correspond
  exactly to the `raise` statements (or uncaught exceptions) of the source,
  and a Python function that catches everything stays total.
* Python `dict` values produced by `json.loads` are modelled by the `Json`
  inductive type; `dict.get` with defaults becomes `objGetD`.
* LLM calls, web search and content fetching are external effects: their
  results enter the model as explicit oracle arguments.
* Machine strings are processed as `List Char`; recursion that is not
  structural in the scanned list takes an explicit fuel argument so that
  every definition stays executable and kernel-reducible.
-/

/-- The `{` character (Python `'{'`), named to keep string brace pairs out of
the source text. -/
def lbrace : Char := Char.ofNat 123

/-- The `}` character (Python `'}'`). -/
def rbrace : Char := Char.ofNat 125

/-- The backtick character used by markdown code fences. -/
def btick : Char := Char.ofNat 96

/-- The link emoji U+1F517 used by the writer's citation format. -/
def linkEmoji : Char := Char.ofNat 0x1F517

/-- Model of a parsed JSON value, the result type of Python's `json.loads`.
Numbers keep their raw literal text: no property in this development depends
on numeric value arithmetic. -/
inductive Json where
  | null
  | bool (b : Bool)
  | num (raw : String)
  | str (s : String)
  | arr (items : List Json)
  | obj (fields : List (String × Json))
  deriving Repr

mutual

/-- Structural equality test for `Json`, mirroring Python `==` on parsed
JSON values. -/
def Json.beq : Json → Json → Bool
  | .null, .null => true
  | .bool a, .bool b => a == b
  | .num a, .num b => a == b
  | .str a, .str b => a == b
  | .arr a, .arr b => Json.beqList a b
  | .obj a, .obj b => Json.beqObj a b
  | _, _ => false

/-- Elementwise `Json.beq` on lists. -/
def Json.beqList : List Json → List Json → Bool
  | [], [] => true
  | a :: as, b :: bs => Json.beq a b && Json.beqList as bs
  | _, _ => false

/-- Elementwise `Json.beq` on association lists. -/
def Json.beqObj : List (String × Json) → List (String × Json) → Bool
  | [], [] => true
  | (ka, va) :: as, (kb, vb) :: bs => ka == kb && Json.beq va vb && Json.beqObj as bs
  | _, _ => false

end

mutual

/-- Soundness of `Json.beq`. -/
def Json.beq_eq : ∀ a b : Json, Json.beq a b = true → a = b
  | .null, .null, _ => rfl
  | .bool a, .bool b, h => by
      simp only [Json.beq, beq_iff_eq] at h; rw [h]
  | .num a, .num b, h => by
      simp only [Json.beq, beq_iff_eq] at h; rw [h]
  | .str a, .str b, h => by
      simp only [Json.beq, beq_iff_eq] at h; rw [h]
  | .arr a, .arr b, h => by
      rw [Json.beqList_eq a b (by simpa [Json.beq] using h)]
  | .obj a, .obj b, h => by
      rw [Json.beqObj_eq a b (by simpa [Json.beq] using h)]
  | .null, .bool _, h => by simp [Json.beq] at h
  | .null, .num _, h => by simp [Json.beq] at h
  | .null, .str _, h => by simp [Json.beq] at h
  | .null, .arr _, h => by simp [Json.beq] at h
  | .null, .obj _, h => by simp [Json.beq] at h
  | .bool _, .null, h => by simp [Json.beq] at h
  | .bool _, .num _, h => by simp [Json.beq] at h
  | .bool _, .str _, h => by simp [Json.beq] at h
  | .bool _, .arr _, h => by simp [Json.beq] at h
  | .bool _, .obj _, h => by simp [Json.beq] at h
  | .num _, .null, h => by simp [Json.beq] at h
  | .num _, .bool _, h => by simp [Json.beq] at h
  | .num _, .str _, h => by simp [Json.beq] at h
  | .num _, .arr _, h => by simp [Json.beq] at h
  | .num _, .obj _, h => by simp [Json.beq] at h
  | .str _, .null, h => by simp [Json.beq] at h
  | .str _, .bool _, h => by simp [Json.beq] at h
  | .str _, .num _, h => by simp [Json.beq] at h
  | .str _, .arr _, h => by simp [Json.beq] at h
  | .str _, .obj _, h => by simp [Json.beq] at h
  | .arr _, .null, h => by simp [Json.beq] at h
  | .arr _, .bool _, h => by simp [Json.beq] at h
  | .arr _, .num _, h => by simp [Json.beq] at h
  | .arr _, .str _, h => by simp [Json.beq] at h
  | .arr _, .obj _, h => by simp [Json.beq] at h
  | .obj _, .null, h => by simp [Json.beq] at h
  | .obj _, .bool _, h => by simp [Json.beq] at h
  | .obj _, .num _, h => by simp [Json.beq] at h
  | .obj _, .str _, h => by simp [Json.beq] at h
  | .obj _, .arr _, h => by simp [Json.beq] at h

/-- Soundness of `Json.beqList`. -/
def Json.beqList_eq : ∀ a b : List Json, Json.beqList a b = true → a = b
  | [], [], _ => rfl
  | a :: as, b :: bs, h => by
      simp only [Json.beqList, Bool.and_eq_true] at h
      rw [Json.beq_eq a b h.1, Json.beqList_eq as bs h.2]
  | [], _ :: _, h => by simp [Json.beqList] at h
  | _ :: _, [], h => by simp [Json.beqList] at h

/-- Soundness of `Json.beqObj`. -/
def Json.beqObj_eq : ∀ a b : List (String × Json), Json.beqObj a b = true → a = b
  | [], [], _ => rfl
  | (ka, va) :: as, (kb, vb) :: bs, h => by
      simp only [Json.beqObj, Bool.and_eq_true, beq_iff_eq] at h
      rw [h.1.1, Json.beq_eq va vb h.1.2, Json.beqObj_eq as bs h.2]
  | [], _ :: _, h => by simp [Json.beqObj] at h
  | _ :: _, [], h => by simp [Json.beqObj] at h

end

mutual

/-- Reflexivity of `Json.beq`. -/
def Json.beq_refl : ∀ a : Json, Json.beq a a = true
  | .null => rfl
  | .bool a => by simp [Json.beq]
  | .num a => by simp [Json.beq]
  | .str a => by simp [Json.beq]
  | .arr a => by simpa [Json.beq] using Json.beqList_refl a
  | .obj a => by simpa [Json.beq] using Json.beqObj_refl a

/-- Reflexivity of `Json.beqList`. -/
def Json.beqList_refl : ∀ a : List Json, Json.beqList a a = true
  | [] => rfl
  | a :: as => by
      simp only [Json.beqList, Bool.and_eq_true]
      exact ⟨Json.beq_refl a, Json.beqList_refl as⟩

/-- Reflexivity of `Json.beqObj`. -/
def Json.beqObj_refl : ∀ a : List (String × Json), Json.beqObj a a = true
  | [] => rfl
  | (k, v) :: as => by
      simp only [Json.beqObj, Bool.and_eq_true, beq_self_eq_true]
      exact ⟨⟨trivial, Json.beq_refl v⟩, Json.beqObj_refl as⟩

end

instance : DecidableEq Json := fun a b =>
  if h : Json.beq a b = true then .isTrue (Json.beq_eq a b h)
  else .isFalse (fun hab => h (hab ▸ Json.beq_refl a))

instance : BEq Json := ⟨Json.beq⟩

instance : LawfulBEq Json where
  eq_of_beq h := Json.beq_eq _ _ h
  rfl := Json.beq_refl _

/-- Field lookup on a JSON object: Python `d[k]` / `d.get(k)` when the value
is a dict, `none` when the key is absent or the value is not a dict. -/
def objGet (j : Json) (k : String) : Option Json :=
  match j with
  | .obj fields => fields.lookup k
  | _ => none

/-- Python `d.get(k, default)` on a JSON object. -/
def objGetD (j : Json) (k : String) (d : Json) : Json :=
  (objGet j k).getD d

/-- Dictionary insertion with Python semantics: an existing key keeps its
position and takes the new value, a new key is appended. -/
def objInsert (fields : List (String × Json)) (k : String) (v : Json) :
    List (String × Json) :=
  match fields with
  | [] => [(k, v)]
  | (k0, v0) :: rest =>
      if k0 = k then (k0, v) :: rest else (k0, v0) :: objInsert rest k v

/-- Python `isinstance(x, dict)`. -/
def Json.isObj : Json → Bool
  | .obj _ => true
  | _ => false

/-- Python `isinstance(x, list)`. -/
def Json.isList : Json → Bool
  | .arr _ => true
  | _ => false

/-- Whether a raw JSON numeric literal denotes zero (Python truthiness of
numbers: `0`, `0.0`, `-0`, `0e5` are falsy). -/
def numLiteralIsZero (raw : String) : Bool :=
  let noSign := match raw.data with
    | c :: rest => if c = '-' ∨ c = '+' then rest else c :: rest
    | [] => []
  let mantissa := noSign.takeWhile (fun c => c ≠ 'e' ∧ c ≠ 'E')
  mantissa ≠ [] && mantissa.all (fun c => c = '0' ∨ c = '.')

/-- Python truthiness of a JSON value. -/
def Json.truthy : Json → Bool
  | .null => false
  | .bool b => b
  | .num raw => !numLiteralIsZero raw
  | .str s => s ≠ ""
  | .arr items => items ≠ []
  | .obj fields => fields ≠ []

mutual

/-- Python `str(x)` on a JSON value (used by f-string interpolation in the
source). Nested containers render in Python's repr style; no claim depends
on the exact container rendering. -/
def jsonToStr (fuel : Nat) : Json → String
  | .null => "None"
  | .bool true => "True"
  | .bool false => "False"
  | .num raw => raw
  | .str s => s
  | .arr items =>
      match fuel with
      | 0 => "[...]"
      | fuel + 1 => "[" ++ String.intercalate ", " (jsonReprList fuel items) ++ "]"
  | .obj fields =>
      match fuel with
      | 0 => "\x7b...\x7d"
      | fuel + 1 =>
          "\x7b" ++ String.intercalate ", " (jsonReprObj fuel fields) ++ "\x7d"

/-- Python `repr` of list elements, approximated. -/
def jsonReprList (fuel : Nat) : List Json → List String
  | [] => []
  | j :: rest =>
      let rendered := match j with
        | .str s => "'" ++ s ++ "'"
        | other => jsonToStr fuel other
      rendered :: jsonReprList fuel rest

/-- Python `repr` of dict entries, approximated. -/
def jsonReprObj (fuel : Nat) : List (String × Json) → List String
  | [] => []
  | (k, v) :: rest =>
      let rendered := match v with
        | .str s => "'" ++ s ++ "'"
        | other => jsonToStr fuel other
      ("'" ++ k ++ "': " ++ rendered) :: jsonReprObj fuel rest

end

/-- Python `str(x)` with a fuel large enough for any value in practice. -/
def pyStr (j : Json) : String := jsonToStr 1000 j

/-- Characters matched by the regex class `\s` in Python (ASCII range). -/
def pyIsSpace (c : Char) : Bool :=
  c = ' ' ∨ c = '\t' ∨ c = '\n' ∨ c = '\r' ∨ c = Char.ofNat 11 ∨ c = Char.ofNat 12

/-- Whitespace characters skipped by Python's JSON scanner. -/
def jsonIsSpace (c : Char) : Bool :=
  c = ' ' ∨ c = '\t' ∨ c = '\n' ∨ c = '\r'

/-- Drop leading JSON whitespace. -/
def skipJsonWs (l : List Char) : List Char := l.dropWhile jsonIsSpace

/-- Python `str.strip()` on a character list. -/
def pyStrip (l : List Char) : List Char :=
  ((l.dropWhile pyIsSpace).reverse.dropWhile pyIsSpace).reverse

/-- Python `s.find(c)`: index of the first occurrence, `none` for -1. -/
def charFind (l : List Char) (c : Char) : Option Nat :=
  l.findIdx? (fun d => d = c)

/-- Python `s.rfind(c)`: index of the last occurrence, `none` for -1. -/
def charRFind (l : List Char) (c : Char) : Option Nat :=
  match charFind l.reverse c with
  | none => none
  | some i => some (l.length - 1 - i)

/-- Python slice `l[start:stop]`. -/
def pySlice (l : List Char) (start stop : Nat) : List Char :=
  (l.take stop).drop start

/-- Python `s[:n]` on strings. -/
def pyTakeStr (n : Nat) (s : String) : String := String.mk (s.data.take n)

/-- Whether `l` starts with the characters of `p`. -/
def listStartsWith (l p : List Char) : Bool := l.take p.length = p

/-- Hexadecimal digit value. -/
def hexDigitVal (c : Char) : Option Nat :=
  if '0' ≤ c ∧ c ≤ '9' then some (c.toNat - '0'.toNat)
  else if 'a' ≤ c ∧ c ≤ 'f' then some (c.toNat - 'a'.toNat + 10)
  else if 'A' ≤ c ∧ c ≤ 'F' then some (c.toNat - 'A'.toNat + 10)
  else none

/-- Lex a JSON string body (the opening quote already consumed), handling
escape sequences; rejects raw control characters as Python's strict decoder
does. A `\uXXXX` escape denoting a surrogate half is replaced by U+FFFD
(Python keeps lone surrogates, which Lean characters cannot represent; no
claim exercises this corner). -/
def jsonStringGo (fuel : Nat) (acc : List Char) (l : List Char) :
    Option (List Char × List Char) :=
  match fuel with
  | 0 => none
  | fuel + 1 =>
    match l with
    | [] => none
    | c :: rest =>
      if c = '"' then some (acc.reverse, rest)
      else if c = '\\' then
        match rest with
        | [] => none
        | e :: rest2 =>
          if e = '"' then jsonStringGo fuel ('"' :: acc) rest2
          else if e = '\\' then jsonStringGo fuel ('\\' :: acc) rest2
          else if e = '/' then jsonStringGo fuel ('/' :: acc) rest2
          else if e = 'b' then jsonStringGo fuel (Char.ofNat 8 :: acc) rest2
          else if e = 'f' then jsonStringGo fuel (Char.ofNat 12 :: acc) rest2
          else if e = 'n' then jsonStringGo fuel ('\n' :: acc) rest2
          else if e = 'r' then jsonStringGo fuel ('\r' :: acc) rest2
          else if e = 't' then jsonStringGo fuel ('\t' :: acc) rest2
          else if e = 'u' then
            match rest2 with
            | h1 :: h2 :: h3 :: h4 :: rest3 =>
              match hexDigitVal h1, hexDigitVal h2, hexDigitVal h3, hexDigitVal h4 with
              | some a, some b, some cc, some d =>
                let code := ((a * 16 + b) * 16 + cc) * 16 + d
                let ch := if 0xD800 ≤ code ∧ code ≤ 0xDFFF then Char.ofNat 0xFFFD
                          else Char.ofNat code
                jsonStringGo fuel (ch :: acc) rest3
              | _, _, _, _ => none
            | _ => none
          else none
      else if c.toNat < 0x20 then none
      else jsonStringGo fuel (c :: acc) rest

/-- Lex a JSON numeric literal, returning its raw text and the remainder. -/
def jsonNumberLex (l : List Char) : Option (List Char × List Char) :=
  let (sign, l1) := match l with
    | '-' :: rest => ([( '-' : Char)], rest)
    | _ => ([], l)
  match l1 with
  | [] => none
  | c :: _ =>
    if ¬ c.isDigit then none
    else
      let intPart := if c = '0' then ['0'] else l1.takeWhile Char.isDigit
      if c ≠ '0' ∧ intPart = [] then none
      else
        let l2 := l1.drop intPart.length
        let (fracPart, l3) := match l2 with
          | '.' :: rest =>
            let ds := rest.takeWhile Char.isDigit
            if ds = [] then ([], l2) else ('.' :: ds, rest.drop ds.length)
          | _ => ([], l2)
        if (match l2 with | '.' :: rest => (rest.takeWhile Char.isDigit) = ([] : List Char) | _ => false : Bool) then
          none
        else
          let (expPart, l4) := match l3 with
            | e :: rest =>
              if e = 'e' ∨ e = 'E' then
                let (es, rest1) := match rest with
                  | s :: r1 => if s = '+' ∨ s = '-' then ([s], r1) else ([], rest)
                  | [] => ([], rest)
                let ds := rest1.takeWhile Char.isDigit
                if ds = [] then ([], l3) else (e :: (es ++ ds), rest1.drop ds.length)
              else ([], l3)
            | [] => ([], l3)
          some (sign ++ intPart ++ fracPart ++ expPart, l4)

mutual

/-- Parse one JSON value at the head of `l` (leading whitespace already
skipped). Fuel bounds the recursion depth; the top-level wrapper supplies
fuel larger than any possible depth for its input. -/
def jsonValueP (fuel : Nat) (l : List Char) : Option (Json × List Char) :=
  match fuel with
  | 0 => none
  | fuel + 1 =>
    match l with
    | [] => none
    | c :: rest =>
      if c = '"' then
        match jsonStringGo (rest.length + 1) [] rest with
        | some (s, r) => some (.str (String.mk s), r)
        | none => none
      else if c = lbrace then jsonObjP fuel (skipJsonWs rest)
      else if c = '[' then jsonArrP fuel (skipJsonWs rest)
      else if listStartsWith l "true".data then some (.bool true, l.drop 4)
      else if listStartsWith l "false".data then some (.bool false, l.drop 5)
      else if listStartsWith l "null".data then some (.null, l.drop 4)
      else if listStartsWith l "NaN".data then some (.num "NaN", l.drop 3)
      else if listStartsWith l "Infinity".data then some (.num "Infinity", l.drop 8)
      else if listStartsWith l "-Infinity".data then some (.num "-Infinity", l.drop 9)
      else
        match jsonNumberLex l with
        | some (raw, r) => some (.num (String.mk raw), r)
        | none => none

/-- Parse the inside of a JSON object, starting right after `{` and leading
whitespace. -/
def jsonObjP (fuel : Nat) (l : List Char) : Option (Json × List Char) :=
  match fuel with
  | 0 => none
  | fuel + 1 =>
    match l with
    | c :: rest =>
        if c = rbrace then some (.obj [], rest)
        else jsonObjKV fuel l []
    | [] => none

/-- Parse `key : value` pairs of a JSON object body. Duplicate keys follow
Python dict semantics (`objInsert`). -/
def jsonObjKV (fuel : Nat) (l : List Char) (acc : List (String × Json)) :
    Option (Json × List Char) :=
  match fuel with
  | 0 => none
  | fuel + 1 =>
    match l with
    | '"' :: rest =>
      match jsonStringGo (rest.length + 1) [] rest with
      | none => none
      | some (k, r1) =>
        match skipJsonWs r1 with
        | ':' :: r2 =>
          match jsonValueP fuel (skipJsonWs r2) with
          | none => none
          | some (v, r3) =>
            let acc' := objInsert acc (String.mk k) v
            match skipJsonWs r3 with
            | ',' :: r4 => jsonObjKV fuel (skipJsonWs r4) acc'
            | d :: r4 => if d = rbrace then some (.obj acc', r4) else none
            | [] => none
        | _ => none
    | _ => none

/-- Parse the inside of a JSON array, starting right after `[` and leading
whitespace. -/
def jsonArrP (fuel : Nat) (l : List Char) : Option (Json × List Char) :=
  match fuel with
  | 0 => none
  | fuel + 1 =>
    match l with
    | ']' :: rest => some (.arr [], rest)
    | _ => jsonArrItems fuel l []

/-- Parse comma-separated items of a JSON array body. -/
def jsonArrItems (fuel : Nat) (l : List Char) (acc : List Json) :
    Option (Json × List Char) :=
  match fuel with
  | 0 => none
  | fuel + 1 =>
    match jsonValueP fuel l with
    | none => none
    | some (v, r1) =>
      match skipJsonWs r1 with
      | ',' :: r2 => jsonArrItems fuel (skipJsonWs r2) (v :: acc)
      | ']' :: r2 => some (.arr (v :: acc).reverse, r2)
      | _ => none

end

/-- Model of Python `json.loads`: parse a complete JSON document, requiring
that nothing but whitespace follows the value. `none` corresponds to
`json.JSONDecodeError`. -/
def json_loads (s : String) : Option Json :=
  match jsonValueP (2 * s.length + 8) (skipJsonWs s.data) with
  | some (j, rest) => if skipJsonWs rest = [] then some j else none
  | none => none

/-- The three backticks opening or closing a markdown fence. -/
def fenceTicks : List Char := [btick, btick, btick]

/-- Whether `l` matches the regex tail `\s*` followed by three backticks. -/
def fenceFollows (l : List Char) : Bool :=
  listStartsWith (l.dropWhile pyIsSpace) fenceTicks

/-- Lazy scan of the regex fragment `.*?\}` (with DOTALL) inside the fence
pattern: find the earliest closing brace that is followed by `\s*` and three
backticks. `l` is the text right after the opening brace; the result is the
text strictly between the braces. -/
def lazyFenceBody : List Char → Option (List Char)
  | [] => none
  | c :: rest =>
      if c = rbrace ∧ fenceFollows rest then some []
      else (lazyFenceBody rest).map (c :: ·)

/-- Continue a fence match after the optional `json` tag: `\s*` then the
braced group. Returns the full group `\{.*?\}` on success. -/
def tryFenceBody (l : List Char) : Option (List Char) :=
  match l.dropWhile pyIsSpace with
  | c :: rest =>
      if c = lbrace then (lazyFenceBody rest).map (fun mid => lbrace :: (mid ++ [rbrace]))
      else none
  | [] => none

/-- Try the agents' fenced-JSON regex at the start of `l`, including the
backtracking over the optional case-insensitive `json` tag. -/
def matchFenceAt (l : List Char) : Option (List Char) :=
  if listStartsWith l fenceTicks then
    let l1 := l.drop 3
    let withTag :=
      if (l1.take 4).map Char.toLower = "json".data then tryFenceBody (l1.drop 4)
      else none
    match withTag with
    | some grp => some grp
    | none => tryFenceBody l1
  else none

/-- `re.search` over all start positions for the agents' fenced-JSON
pattern, leftmost match first. -/
def searchFence : List Char → Option (List Char)
  | [] => none
  | c :: rest =>
      match matchFenceAt (c :: rest) with
      | some grp => some grp
      | none => searchFence rest

/-- Shared candidate-extraction step of the planner, summarizer, reviewer
and finder parsers: a fenced JSON block if the fence regex matches, else the
slice from the first `{` to the last `}` (requiring the first `{` to come
strictly before the last `}`), else nothing. -/
def agent_json_candidate (content : String) : Option String :=
  match searchFence content.data with
  | some grp => some (String.mk grp)
  | none =>
      match charFind content.data lbrace, charRFind content.data rbrace with
      | some s, some e =>
          if s < e then some (String.mk (pySlice content.data s (e + 1))) else none
      | _, _ => none

/-- `PlannerAgent._parse_plan_output`: extract a JSON candidate and parse
it; both failure paths raise `ValueError` in the source, modelled as
`.error`. -/
def parse_plan_output (content : String) : Except String Json :=
  match agent_json_candidate content with
  | none => .error ("No JSON object found in response: " ++ pyTakeStr 200 content ++ "...")
  | some js =>
      match json_loads js with
      | some j => .ok j
      | none => .error ("Failed to parse planner output as JSON: " ++ pyTakeStr 500 js ++ "...")

/-- The summarizer's typed default when no JSON object is found in the LLM
output. -/
def summarizerDefaultNoJson (content : String) : Json :=
  .obj [("summary", .str (if content ≠ "" then pyTakeStr 500 content else "No summary generated")),
        ("key_facts", .arr []),
        ("relevance_score", .num "0.5"),
        ("compression_ratio", .num "1.0"),
        ("word_count", .obj [("original", .num "0"), ("summary", .num "0")])]

/-- The summarizer's typed default when the extracted candidate fails JSON
decoding. -/
def summarizerDefaultDecodeErr (content : String) : Json :=
  .obj [("summary", .str (if content ≠ "" then pyTakeStr 500 content else "Parse error - raw content")),
        ("key_facts", .arr []),
        ("relevance_score", .num "0.5"),
        ("compression_ratio", .num "1.0"),
        ("word_count", .obj [("original", .num "0"), ("summary", .num "0")])]

/-- `SummarizerAgent._parse_summary`: total — every failure path returns a
typed default dict, never an error. -/
def parse_summary (content : String) : Json :=
  match agent_json_candidate content with
  | none => summarizerDefaultNoJson content
  | some js =>
      match json_loads js with
      | some j => j
      | none => summarizerDefaultDecodeErr content

/-- The reviewer's typed default (identical on both failure paths). -/
def reviewerDefault : Json :=
  .obj [("assessment", .str "Parse error"),
        ("has_gaps", .bool false),
        ("gaps", .arr []),
        ("recommendations", .arr []),
        ("confidence", .num "0.0"),
        ("should_continue", .bool false)]

/-- `ReviewerAgent._parse_review`: total, with a typed default on both
failure paths. -/
def parse_review (content : String) : Json :=
  match agent_json_candidate content with
  | none => reviewerDefault
  | some js =>
      match json_loads js with
      | some j => j
      | none => reviewerDefault

/-- The finder's typed default search plan (identical on both failure
paths): one query built from the first 100 characters of the raw output. -/
def searchPlanDefault (content : String) : Json :=
  .obj [("search_queries",
         .arr [.obj [("query", .str (pyTakeStr 100 content)), ("priority", .num "1")]])]

/-- `SourceFinderAgent._parse_search_plan`: total, with a typed default on
both failure paths. -/
def parse_search_plan (content : String) : Json :=
  match agent_json_candidate content with
  | none => searchPlanDefault content
  | some js =>
      match json_loads js with
      | some j => j
      | none => searchPlanDefault content

/-- Zero-padded three-digit rendering of a counter, Python `f"{n:03d}"`. -/
def pad3 (n : Nat) : String :=
  if n < 10 then "00" ++ toString n
  else if n < 100 then "0" ++ toString n
  else toString n

/-- A sub-question record as constructed by `PlannerAgent.plan`
(`SubQuestion(id=..., question=..., status="pending", sources=[],
findings="")`). -/
structure SubQ where
  id : String
  question : String
  status : String
  sources : List Json := []
  findingsText : String := ""
  deriving Repr, DecidableEq

/-- Loop of `PlannerAgent.plan` that turns `sub_questions` entries into
`SubQuestion` records, skipping non-dict entries; the id default counts the
records accepted so far. -/
def plannerBuildLoop (items : List Json) (acc : List SubQ) : List SubQ :=
  match items with
  | [] => acc.reverse
  | item :: rest =>
      match item with
      | .obj _ =>
          let sq : SubQ :=
            { id := pyStr (objGetD item "id" (.str ("sq-" ++ pad3 (acc.length + 1)))),
              question := pyStr (objGetD item "question" (.str "")),
              status := "pending" }
          plannerBuildLoop rest (sq :: acc)
      | _ => plannerBuildLoop rest acc

/-- Iterating `plan_data.get("sub_questions", [])`: lists iterate their
items, strings iterate characters (none of which are dicts) and dicts
iterate keys (none of which are dicts), while non-iterable values raise a
`TypeError`. -/
def plannerBuildSubQs (planData : Json) : Except String (List SubQ) :=
  match objGetD planData "sub_questions" (.arr []) with
  | .arr items => .ok (plannerBuildLoop items [])
  | .str _ => .ok []
  | .obj _ => .ok []
  | _ => .error "TypeError: sub_questions is not iterable"

/-- `PlannerAgent.plan`, as a function of the LLM content string: raises
`RuntimeError` on empty content, propagates the `ValueError`s of
`_parse_plan_output`, and otherwise builds the typed plan. -/
def planner_plan (llmContent : String) : Except String (List SubQ) :=
  if llmContent = "" then .error "Empty response from LLM"
  else
    match parse_plan_output llmContent with
    | .error e => .error e
    | .ok planData => plannerBuildSubQs planData

/-- Try the writer's link-citation regex at the head of the text. The
pattern is: left bracket, the link emoji, a (possibly empty) run without a
closing bracket (the title), then a parenthesised non-empty run without a
closing parenthesis (the URL). Returns title, URL and the remainder. -/
def matchLinkAt : List Char → Option (List Char × List Char × List Char)
  | '[' :: c :: rest =>
      if c = linkEmoji then
        let A := rest.takeWhile (fun d => d ≠ ']')
        match rest.drop A.length with
        | ']' :: '(' :: r2 =>
          let B := r2.takeWhile (fun d => d ≠ ')')
          if B = [] then none
          else
            match r2.drop B.length with
            | ')' :: r3 => some (A, B, r3)
            | _ => none
        | _ => none
      else none
  | _ => none

/-- `validate_link_citations` as `re.sub` with a replacement function: a
left-to-right scan that keeps a matched citation when its URL is among the
valid URLs and deletes it otherwise, resuming after the match either way. -/
def subLinkF (valid : List Json) (fuel : Nat) (l : List Char) : List Char :=
  match fuel with
  | 0 => l
  | fuel + 1 =>
    match l with
    | [] => []
    | c :: rest =>
      match matchLinkAt (c :: rest) with
      | some (A, B, r3) =>
          if Json.str (String.mk B) ∈ valid then
            '[' :: linkEmoji :: (A ++ ']' :: '(' :: (B ++ ')' :: subLinkF valid fuel r3))
          else subLinkF valid fuel r3
      | none => c :: subLinkF valid fuel rest

/-- Try the writer's legacy numeric-citation regex `\[(\d+)\]` at the head
of the text: left bracket, one or more digits, right bracket. -/
def matchNumAt : List Char → Option (List Char × List Char)
  | '[' :: rest =>
      let D := rest.takeWhile Char.isDigit
      if D = [] then none
      else
        match rest.drop D.length with
        | ']' :: r2 => some (D, r2)
        | _ => none
  | _ => none

/-- Numeric value of a digit run. -/
def digitsToNat (ds : List Char) : Nat :=
  ds.foldl (fun acc c => acc * 10 + (c.toNat - '0'.toNat)) 0

/-- The writer's replacement for a legacy numeric citation `[N]`: the
link-format citation built from finding `N` when `1 ≤ N ≤ len(findings)`,
the finding is a dict and its source URL is truthy; the empty string
otherwise. -/
def replaceOldCitation (findings : List Json) (digits : List Char) : List Char :=
  let n := digitsToNat digits
  if 1 ≤ n ∧ n ≤ findings.length then
    match findings.get? (n - 1) with
    | some f =>
        if f.isObj then
          let si0 := objGetD f "source_info" (.obj [])
          let si := if si0.isObj then si0 else Json.obj []
          let url := objGetD si "url" (.str "")
          let title := objGetD si "title" (.str ("Source " ++ toString n))
          if url.truthy then
            '[' :: linkEmoji :: ' ' ::
              ((pyStr title).data ++ ']' :: '(' :: ((pyStr url).data ++ [')']))
          else []
        else []
    | none => []
  else []

/-- `convert_old_citations` as `re.sub`: replace each legacy numeric
citation by `replaceOldCitation`, resuming after the matched span. -/
def subNumF (findings : List Json) (fuel : Nat) (l : List Char) : List Char :=
  match fuel with
  | 0 => l
  | fuel + 1 =>
    match l with
    | [] => []
    | c :: rest =>
      match matchNumAt (c :: rest) with
      | some (D, r2) => replaceOldCitation findings D ++ subNumF findings fuel r2
      | none => c :: subNumF findings fuel rest

/-- A segment of the link-citation scan: either a literal character or a
scanned citation with its title and URL. -/
inductive LinkSeg where
  | chr (c : Char)
  | cite (title url : List Char)
  deriving Repr, DecidableEq

/-- Decompose a text into the segments the link-citation `re.sub` scan
visits: citations at match positions, literal characters elsewhere. -/
def scanLinkF (fuel : Nat) (l : List Char) : List LinkSeg :=
  match fuel with
  | 0 => l.map LinkSeg.chr
  | fuel + 1 =>
    match l with
    | [] => []
    | c :: rest =>
      match matchLinkAt (c :: rest) with
      | some (A, B, r3) => .cite A B :: scanLinkF fuel r3
      | none => .chr c :: scanLinkF fuel rest

/-- Rendering of one scanned segment under the validator's keep/drop rule:
a citation survives verbatim exactly when its URL is among the valid URLs
and is deleted otherwise. -/
def renderLinkSeg (valid : List Json) : LinkSeg → List Char
  | .chr c => [c]
  | .cite A B =>
      if Json.str (String.mk B) ∈ valid then
        '[' :: linkEmoji :: (A ++ ']' :: '(' :: (B ++ [')']))
      else []

/-- Rendering of a whole scanned segment list. -/
def renderLink (valid : List Json) (segs : List LinkSeg) : List Char :=
  (segs.map (renderLinkSeg valid)).flatten

/-- A segment of the numeric-citation scan. -/
inductive NumSeg where
  | chr (c : Char)
  | ncite (digits : List Char)
  deriving Repr, DecidableEq

/-- Decompose a text into the segments the numeric-citation `re.sub` scan
visits. -/
def scanNumF (fuel : Nat) (l : List Char) : List NumSeg :=
  match fuel with
  | 0 => l.map NumSeg.chr
  | fuel + 1 =>
    match l with
    | [] => []
    | c :: rest =>
      match matchNumAt (c :: rest) with
      | some (D, r2) => .ncite D :: scanNumF fuel r2
      | none => .chr c :: scanNumF fuel rest

/-- Rendering of one numeric-scan segment under the converter's rule. -/
def renderNumSeg (findings : List Json) : NumSeg → List Char
  | .chr c => [c]
  | .ncite D => replaceOldCitation findings D

/-- Rendering of a whole numeric-scan segment list. -/
def renderNum (findings : List Json) (segs : List NumSeg) : List Char :=
  (segs.map (renderNumSeg findings)).flatten

/-- `validate_link_citations` on a string, with fuel fixed from the input
length (every scan step consumes at least one character). -/
def validate_link_citations (valid : List Json) (text : String) : String :=
  String.mk (subLinkF valid (text.data.length + 1) text.data)

/-- `convert_old_citations` on a string. -/
def convert_old_citations (findings : List Json) (text : String) : String :=
  String.mk (subNumF findings (text.data.length + 1) text.data)

/-- The set (as a list) of valid citation URLs that `_validate_citations`
collects from the findings: the truthy `source_info.url` values of dict
findings. -/
def validUrlsOfFindings (findings : List Json) : List Json :=
  findings.foldl
    (fun acc f =>
      if f.isObj then
        let si0 := objGetD f "source_info" (.obj [])
        let si := if si0.isObj then si0 else Json.obj []
        let url := objGetD si "url" (.str "")
        if url.truthy then acc ++ [url] else acc
      else acc)
    []

/-- The per-text citation fix of `_validate_citations`: first convert
legacy numeric citations, then validate link citations. -/
def fixCitationsText (findings : List Json) (text : String) : String :=
  validate_link_citations (validUrlsOfFindings findings) (convert_old_citations findings text)

/-- The link citations that a leftmost scan finds in a text, as
title/URL string pairs (used to state what "citation URLs appearing in the
text" means). -/
def scannedCitations (text : String) : List (String × String) :=
  (scanLinkF (text.data.length + 1) text.data).filterMap
    (fun seg => match seg with
      | .cite A B => some (String.mk A, String.mk B)
      | .chr _ => none)

/-- The citation URLs a leftmost scan finds in a text. -/
def citeUrls (text : String) : List String :=
  (scannedCitations text).map Prod.snd

/-- Characters allowed in a URL scheme after the leading letter. -/
def isSchemeChar (c : Char) : Bool :=
  c.isAlphanum ∨ c = '+' ∨ c = '-' ∨ c = '.'

/-- Drop a leading `scheme:` from a URL if the prefix before the first
colon is a valid scheme, as `urllib.parse.urlparse` does. -/
def stripScheme (l : List Char) : List Char :=
  match charFind l ':' with
  | some i =>
      if 1 ≤ i then
        match l with
        | c :: _ =>
            if c.isAlpha ∧ (l.take i).all isSchemeChar then l.drop (i + 1) else l
        | [] => l
      else l
  | none => l

/-- `urlparse(url).netloc`: the authority component after `//`, up to the
next `/`, `?` or `#`; empty when the URL has no `//`. -/
def urlNetloc (s : String) : String :=
  let l := stripScheme s.data
  if listStartsWith l "//".data then
    String.mk ((l.drop 2).takeWhile (fun c => c ≠ '/' ∧ c ≠ '?' ∧ c ≠ '#'))
  else ""

/-- `WriterAgent._extract_domain`: netloc with a leading `www.` removed; a
non-string URL makes `urlparse` raise, caught and mapped to "unknown". -/
def extract_domain (url : Json) : String :=
  match url with
  | .str s =>
      let d := urlNetloc s
      if listStartsWith d.data "www.".data then String.mk (d.data.drop 4) else d
  | _ => "unknown"

/-- Count of whitespace-separated words, Python `len(s.split())`. -/
def pyWordCount (s : String) : Nat :=
  ((s.data.splitOnP pyIsSpace).filter (fun w => w ≠ [])).length

/-- Loop of `WriterAgent._extract_sources_from_findings`: walk the findings
with a 1-based index over every entry, keep the first occurrence of each
truthy source URL, and build the source entry recorded for it. -/
def extract_sources_go (findings : List Json) (i : Nat) (seen : List Json)
    (acc : List Json) : List Json :=
  match findings with
  | [] => acc.reverse
  | f :: rest =>
      if f.isObj then
        let si0 := objGetD f "source_info" (.obj [])
        let si := if si0.isObj then si0 else Json.obj []
        let url := objGetD si "url" (.str "")
        if url.truthy ∧ url ∉ seen then
          let md0 := objGetD f "metadata" (.obj [])
          let md := if md0.isObj then md0 else Json.obj []
          let entry : Json := .obj
            [("id", .str ("source-" ++ pad3 i)),
             ("url", url),
             ("title", objGetD si "title" (.str "Unknown")),
             ("domain", .str (extract_domain url)),
             ("reliability", objGetD si "reliability" (.str "medium")),
             ("confidence", objGetD md "confidence" (.num "0.8"))]
          extract_sources_go rest (i + 1) (seen ++ [url]) (entry :: acc)
        else extract_sources_go rest (i + 1) seen acc
      else extract_sources_go rest (i + 1) seen acc

/-- `WriterAgent._extract_sources_from_findings`. -/
def extract_sources_from_findings (findings : List Json) : List Json :=
  extract_sources_go findings 1 [] []

/-- A normalized report section (`_normalize_sections` output entry). -/
structure RSection where
  heading : String
  content : String
  deriving Repr, DecidableEq

/-- `WriterAgent._normalize_sections`: keep dict entries of a list value,
coercing heading and content to strings; anything else becomes the empty
list. -/
def normalize_sections (j : Json) : List RSection :=
  match j with
  | .arr items =>
      items.filterMap (fun sec =>
        match sec with
        | .obj _ => some
            { heading := pyStr (objGetD sec "heading" (.str "Untitled Section")),
              content := pyStr (objGetD sec "content" (.str "")) }
        | _ => none)
  | _ => []

/-- `WriterAgent._normalize_sources`: keep dict entries of a list value with
string-coerced url/title/reliability/domain and the raw confidence. -/
def normalize_sources (j : Json) : List Json :=
  match j with
  | .arr items =>
      items.filterMap (fun src =>
        match src with
        | .obj _ => some (Json.obj
            [("url", .str (pyStr (objGetD src "url" (.str "")))),
             ("title", .str (pyStr (objGetD src "title" (.str "Untitled Source")))),
             ("reliability", .str (pyStr (objGetD src "reliability" (.str "unknown")))),
             ("domain", .str (pyStr (objGetD src "domain" (.str "")))),
             ("confidence", objGetD src "confidence" (.num "0.0"))])
        | _ => none)
  | _ => []

/-- The writer's report representation after normalization. Fields the
source coerces to strings are strings; fields it keeps raw stay `Json`. -/
structure RReport where
  title : Json
  executive_summary : Json
  sections : List RSection
  sources_used : List Json
  confidence_assessment : Json
  word_count : Json
  error : Option String := none
  deriving Repr, DecidableEq

/-- `WriterAgent._create_error_report`. -/
def create_error_report (msg : String) : RReport :=
  { title := .str "Research Report (Error)",
    executive_summary := .str ("Unable to generate complete report: " ++ msg),
    sections := [],
    sources_used := [],
    confidence_assessment := .str "Failed - insufficient data",
    word_count := .num "0",
    error := some msg }

/-- `WriterAgent._fallback_report_from_raw`. -/
def fallback_report_from_raw (content : String) (findings : List Json) : RReport :=
  { title := .str "Research Report",
    executive_summary := .str (pyTakeStr 500 content),
    sections := [{ heading := "Findings", content := content }],
    sources_used := extract_sources_from_findings findings,
    confidence_assessment :=
      .str "Confidence reduced because model returned malformed structured output.",
    word_count := .num (toString (pyWordCount content)),
    error := none }

/-- Greedy scan of `.*\}` inside the writer's fence pattern: the body up to
the last closing brace that is followed by `\s*` and three backticks. -/
def greedyFenceBody : List Char → Option (List Char)
  | [] => none
  | c :: rest =>
      match greedyFenceBody rest with
      | some mid => some (c :: mid)
      | none => if c = rbrace ∧ fenceFollows rest then some [] else none

/-- The writer's greedy fenced-JSON regex tried at the start of `l`. -/
def matchFenceGreedyAt (l : List Char) : Option (List Char) :=
  if listStartsWith l fenceTicks then
    let l1 := l.drop 3
    let tryBody := fun (l2 : List Char) =>
      match l2.dropWhile pyIsSpace with
      | c :: rest =>
          if c = lbrace then (greedyFenceBody rest).map (fun mid => lbrace :: (mid ++ [rbrace]))
          else none
      | [] => none
    let withTag :=
      if (l1.take 4).map Char.toLower = "json".data then tryBody (l1.drop 4)
      else none
    match withTag with
    | some grp => some grp
    | none => tryBody l1
  else none

/-- Leftmost search for the writer's greedy fenced-JSON pattern. -/
def searchFenceGreedy : List Char → Option (List Char)
  | [] => none
  | c :: rest =>
      match matchFenceGreedyAt (c :: rest) with
      | some grp => some grp
      | none => searchFenceGreedy rest

/-- `WriterAgent._extract_json_candidate`. -/
def writer_extract_json_candidate (content : String) : String :=
  match searchFenceGreedy content.data with
  | some grp => String.mk (pyStrip grp)
  | none =>
      let stripped := pyStrip content.data
      let startsBrace := match stripped with
        | c :: _ => c = lbrace
        | [] => false
      let endsBrace := match stripped.reverse with
        | c :: _ => c = rbrace
        | [] => false
      if startsBrace && endsBrace then String.mk stripped
      else
        match charFind stripped lbrace, charRFind stripped rbrace with
        | some s, some e =>
            if s < e then String.mk (pyStrip (pySlice stripped s (e + 1))) else ""
        | _, _ => ""

/-- `re.sub(r",(\s*[}\]])", r"\1", ...)`: delete a comma directly before
optional whitespace and a closing brace or bracket, consuming the whole
matched span before continuing. -/
def removeTrailingCommasF (fuel : Nat) (l : List Char) : List Char :=
  match fuel with
  | 0 => l
  | fuel + 1 =>
    match l with
    | [] => []
    | c :: rest =>
        if c = ',' then
          let ws := rest.takeWhile pyIsSpace
          match rest.drop ws.length with
          | d :: rest2 =>
              if d = rbrace ∨ d = ']' then
                ws ++ d :: removeTrailingCommasF fuel rest2
              else c :: removeTrailingCommasF fuel rest
          | [] => c :: removeTrailingCommasF fuel rest
        else c :: removeTrailingCommasF fuel rest

/-- `WriterAgent._parse_json_payload`: extract a candidate, parse it, retry
once after removing trailing commas, and require a dict result. -/
def parse_json_payload (content : String) : Option Json :=
  let cand := writer_extract_json_candidate content
  if cand = "" then none
  else
    match json_loads cand with
    | some j => if j.isObj then some j else none
    | none =>
        let repaired := String.mk (removeTrailingCommasF (cand.data.length + 1) cand.data)
        match json_loads repaired with
        | some j => if j.isObj then some j else none
        | none => none

/-- The citation-fixing and source-recomputation core of
`WriterAgent._validate_citations`: with no findings the report passes
through untouched; otherwise the executive summary and each non-empty
section content get the numeric-conversion and link-validation passes and
`sources_used` is recomputed from the findings. A truthy non-string
executive summary makes `re.sub` raise a `TypeError`, modelled as
`.error`. -/
def validate_report (findings : List Json) (exec0 : Json) (sections : List RSection)
    (sources : List Json) : Except String (Json × List RSection × List Json) :=
  if findings = [] then .ok (exec0, sections, sources)
  else
    let processExec : Except String Json :=
      if exec0.truthy then
        match exec0 with
        | .str s => .ok (.str (fixCitationsText findings s))
        | _ => .error "expected string or bytes-like object"
      else .ok exec0
    match processExec with
    | .error e => .error e
    | .ok exec1 =>
        let sections1 := sections.map (fun sec =>
          if sec.content ≠ "" then
            { sec with content := fixCitationsText findings sec.content }
          else sec)
        .ok (exec1, sections1, extract_sources_from_findings findings)

/-- `WriterAgent._parse_report_response`: strip, extract and parse the JSON
payload, fill defaulted fields, normalize sections and sources, run
citation validation, and ensure a word count. `.ok none` is Python's
`None`; `.error` is a propagating `TypeError` from citation validation. -/
def parse_report_response (content0 : String) (findings : List Json) :
    Except String (Option RReport) :=
  let content := String.mk (pyStrip content0.data)
  if content = "" then .ok none
  else
    match parse_json_payload content with
    | none => .ok none
    | some parsed =>
        let t0 := objGetD parsed "title" .null
        let title := if t0.truthy then t0 else Json.str "Research Report"
        let e0 := objGetD parsed "executive_summary" .null
        let exec0 := if e0.truthy then e0 else Json.str "No executive summary generated."
        let sections := normalize_sections (objGetD parsed "sections" .null)
        let c0 := objGetD parsed "confidence_assessment" .null
        let conf := if c0.truthy then c0 else Json.str "Confidence not assessed."
        let sources0 := normalize_sources (objGetD parsed "sources_used" .null)
        let sources1 := if sources0 = [] then extract_sources_from_findings findings
                        else sources0
        match validate_report findings exec0 sections sources1 with
        | .error e => .error e
        | .ok (exec1, sections1, sources2) =>
            let wc0 := objGetD parsed "word_count" .null
            let totalText := pyStr exec1 ++ String.join (sections1.map (fun s => s.content))
            let wc := if wc0.truthy then wc0 else Json.num (toString (pyWordCount totalText))
            .ok (some
              { title := title,
                executive_summary := exec1,
                sections := sections1,
                sources_used := sources2,
                confidence_assessment := conf,
                word_count := wc,
                error := none })

/-- `WriterAgent._repair_report_output` as a function of the repair LLM
outcome: empty input short-circuits, a transport error is caught and
returns the empty string, and a response is stripped. -/
def repair_report_output (content : String) (repairLlm : Except String String) : String :=
  if content = "" then ""
  else
    match repairLlm with
    | .ok s => String.mk (pyStrip s.data)
    | .error _ => ""

/-- `WriterAgent.write_report` as a function of the findings list and the
two LLM call outcomes: empty findings short-circuit to an error report, a
raising LLM call (or a `TypeError` escaping the parse helpers) is caught
into an error report, a failed parse triggers the repair pass and then the
raw-text fallback. -/
def write_report (findings : List Json) (llm : Except String String)
    (repairLlm : Except String String) : RReport :=
  if findings = [] then
    create_error_report "No research findings available to synthesize."
  else
    match llm with
    | .error e => create_error_report e
    | .ok rawContent =>
        let content := String.mk (pyStrip rawContent.data)
        match parse_report_response content findings with
        | .error e => create_error_report e
        | .ok (some r) => r
        | .ok none =>
            let repaired := repair_report_output content repairLlm
            match parse_report_response repaired findings with
            | .error e => create_error_report e
            | .ok (some r) => r
            | .ok none => fallback_report_from_raw content findings

/-- A raw web-search hit as returned by the DuckDuckGo client (`href`,
`title`, `body` string fields). -/
structure SearchHit where
  href : String
  title : String
  body : String
  deriving Repr, DecidableEq

/-- Whether `l` ends with the characters of `p`. -/
def listEndsWith (l p : List Char) : Bool := listStartsWith l.reverse p.reverse

/-- `SourceFinderAgent._estimate_reliability`. -/
def estimate_reliability (domain : String) : String :=
  if listEndsWith domain.data ".gov".data ∨ listEndsWith domain.data ".edu".data then "high"
  else if listEndsWith domain.data "nature.com".data ∨ listEndsWith domain.data "science.org".data
      ∨ listEndsWith domain.data "arxiv.org".data ∨ listEndsWith domain.data "github.com".data then
    "high"
  else if domain.data.contains '.' then "medium"
  else "low"

/-- A discovered source record (`Source` TypedDict as built by
`_create_source`). The confidence literal is kept as its decimal text; the
Python `hash(url) % 10000` id component uses the per-process randomized
string hash, replaced here by a deterministic character-sum stand-in (no
claim depends on id values). -/
structure SourceR where
  id : String
  url : String
  title : String
  content : String
  domain : String
  reliability : String
  confidence : String
  timestamp : String
  deriving Repr, DecidableEq

/-- Zero-padded four-digit rendering, Python `f"{n:04d}"`. -/
def pad4 (n : Nat) : String :=
  if n < 10 then "000" ++ toString n
  else if n < 100 then "00" ++ toString n
  else if n < 1000 then "0" ++ toString n
  else toString n

/-- Deterministic stand-in for Python's randomized `hash(url) % 10000`. -/
def urlHashStandIn (url : String) : Nat :=
  (url.data.foldl (fun acc c => acc + c.toNat) 0) % 10000

/-- `SourceFinderAgent._create_source`: normalize one search hit into a
`Source` record; `now` is the timestamp oracle. -/
def create_source (hit : SearchHit) (subQuestionId : String) (now : String) : SourceR :=
  let url := hit.href
  let domain := urlNetloc url
  let reliability := estimate_reliability domain
  let confidence := if reliability = "high" then "0.8"
                    else if reliability = "medium" then "0.65" else "0.5"
  { id := "src-" ++ subQuestionId ++ "-" ++ pad4 (urlHashStandIn url),
    url := url,
    title := hit.title,
    content := hit.body,
    domain := domain,
    reliability := reliability,
    confidence := confidence,
    timestamp := now }

/-- Lookup in the per-domain counter dictionary. -/
def countsGet (counts : List (String × Nat)) (d : String) : Nat :=
  (counts.lookup d).getD 0

/-- Increment in the per-domain counter dictionary. -/
def countsInc (counts : List (String × Nat)) (d : String) : List (String × Nat) :=
  match counts with
  | [] => [(d, 1)]
  | (k, v) :: rest => if k = d then (k, v + 1) :: rest else (k, v) :: countsInc rest d

/-- Inner loop of `find_sources` over the hits of one executed query:
skip a hit whose domain is already at the per-domain cap, otherwise append
the source and stop as soon as the overall source limit is reached. The
returned flag records whether the limit-break fired. -/
def find_sources_hits (hits : List SearchHit) (sqId now : String)
    (maxPerDomain sourcesLimit : Nat) (acc : List SourceR)
    (counts : List (String × Nat)) : List SourceR × List (String × Nat) × Bool :=
  match hits with
  | [] => (acc, counts, false)
  | hit :: rest =>
      let src := create_source hit sqId now
      let d := src.domain
      if maxPerDomain ≤ countsGet counts d then
        find_sources_hits rest sqId now maxPerDomain sourcesLimit acc counts
      else
        let acc' := acc ++ [src]
        let counts' := countsInc counts d
        if sourcesLimit ≤ acc'.length then (acc', counts', true)
        else find_sources_hits rest sqId now maxPerDomain sourcesLimit acc' counts'

/-- Outer loop of `find_sources` over the generated queries: skip non-dict
entries and falsy query strings, feed each executed query's hits (the
search oracle, capped at `max_results` per query) to the inner loop, and
stop once the overall source limit is reached. -/
def find_sources_queries (pairs : List (Json × List SearchHit)) (sqId now : String)
    (maxPerDomain resultsPerQuery sourcesLimit : Nat) (acc : List SourceR)
    (counts : List (String × Nat)) : List SourceR :=
  match pairs with
  | [] => acc
  | (queryData, hits) :: rest =>
      if ¬ queryData.isObj then
        find_sources_queries rest sqId now maxPerDomain resultsPerQuery sourcesLimit acc counts
      else if ¬ (objGetD queryData "query" (.str "")).truthy then
        find_sources_queries rest sqId now maxPerDomain resultsPerQuery sourcesLimit acc counts
      else
        let (acc', counts', _) :=
          find_sources_hits (hits.take resultsPerQuery) sqId now maxPerDomain sourcesLimit
            acc counts
        if sourcesLimit ≤ acc'.length then acc'
        else find_sources_queries rest sqId now maxPerDomain resultsPerQuery sourcesLimit
          acc' counts'

/-- `SourceFinderAgent.find_sources` as a function of the parsed search
plan's query list and the per-query search results: apply the per-domain
cap (2 when diversity is enforced, effectively unbounded otherwise) and the
overall source cap. -/
def find_sources (queries : List Json) (searchResults : List (List SearchHit))
    (sqId now : String) (resultsPerQuery sourcesLimit : Nat)
    (enforceDiversity : Bool) : List SourceR :=
  let maxPerDomain := if enforceDiversity then 2 else 99999
  find_sources_queries (queries.zip searchResults) sqId now maxPerDomain resultsPerQuery
    sourcesLimit [] []

/-- Number of sources in a list whose domain is `d`. -/
def countDomain (d : String) (sources : List SourceR) : Nat :=
  (sources.filter (fun s => s.domain = d)).length

/-- `ReviewerAgent.review` as a function of the LLM content: parse
defensively and build the typed `GapReport` dict. -/
def reviewer_review (llmContent : String) : Json :=
  let parsed := parse_review llmContent
  .obj [("has_gaps", objGetD parsed "has_gaps" (.bool false)),
        ("gaps", objGetD parsed "gaps" (.arr [])),
        ("recommendations", objGetD parsed "recommendations" (.arr [])),
        ("confidence", objGetD parsed "confidence" (.num "0.5"))]

/-- `SummarizerAgent.summarize` as a function of the LLM content and the
call arguments: parse defensively and build the finding dict of
`SummarizerOutput`. -/
def summarizer_summarize (llmContent subQuestion sourceTitle sourceUrl : String) : Json :=
  let parsed := parse_summary llmContent
  .obj [("sub_question", .str subQuestion),
        ("summary", objGetD parsed "summary" (.str "")),
        ("key_facts", objGetD parsed "key_facts" (.arr [])),
        ("relevance_score", objGetD parsed "relevance_score" (.num "0.0")),
        ("compression_ratio", objGetD parsed "compression_ratio" (.num "1.0")),
        ("word_count", objGetD parsed "word_count"
          (.obj [("original", .num "0"), ("summary", .num "0")])),
        ("source_title", .str sourceTitle),
        ("source_url", .str sourceUrl)]

/-- Runtime options (`ResearchOptions`), with the pydantic defaults. -/
structure GOptions where
  max_iterations : Nat := 3
  max_sources : Nat := 12
  max_sources_per_question : Nat := 4
  search_results_per_query : Nat := 5
  source_diversity : Bool := true
  report_length : String := "medium"
  include_session_memory : Bool := true
  session_memory_limit : Nat := 3
  summarizer_source_limit : Nat := 6
  deriving Repr, DecidableEq

/-- The pydantic default options. -/
def defaultOptions : GOptions := {}

/-- The pydantic field bounds of `ResearchOptions` (every validated options
value satisfies them). -/
def validOptions (o : GOptions) : Prop :=
  1 ≤ o.max_iterations ∧ o.max_iterations ≤ 10 ∧
  3 ≤ o.max_sources ∧ o.max_sources ≤ 40 ∧
  1 ≤ o.max_sources_per_question ∧ o.max_sources_per_question ≤ 12 ∧
  1 ≤ o.search_results_per_query ∧ o.search_results_per_query ≤ 15 ∧
  o.session_memory_limit ≤ 8 ∧
  1 ≤ o.summarizer_source_limit ∧ o.summarizer_source_limit ≤ 20

instance (o : GOptions) : Decidable (validOptions o) := by
  unfold validOptions; infer_instance

/-- The `ResearchState` record threaded through the graph, restricted to
the fields the session runtime reads or writes (the `trace` event log is
unused by the modelled paths). -/
structure GState where
  query : String
  session_id : String
  status : String
  options : Option GOptions
  plan : List SubQ
  sources : List SourceR
  findings : List Json
  gaps : Json
  iteration : Nat
  final_report : Option RReport
  session_memory : List Json
  needs_finder_retry : Bool
  finder_retry_count : Nat
  started_at : String
  error : Option String
  deriving Repr, DecidableEq

/-- `create_initial_state`: the fresh state for a new session;
`started_at` is the clock oracle. The empty `options` dict of the source
is `none` (it validates to the default options wherever it is resolved). -/
def create_initial_state (query session_id started_at : String) : GState :=
  { query := query,
    session_id := session_id,
    status := "idle",
    options := none,
    plan := [],
    sources := [],
    findings := [],
    gaps := .null,
    iteration := 0,
    final_report := none,
    session_memory := [],
    needs_finder_retry := false,
    finder_retry_count := 0,
    started_at := started_at,
    error := none }

/-- `ResearchGraph._resolve_options`: a missing or non-dict options payload
validates to the pydantic defaults. -/
def resolveOptions (s : GState) : GOptions := s.options.getD defaultOptions

/-- `ResearchGraph._planner_node`: increment the iteration counter and
store the planner result (the gap-based query refinement only changes the
LLM prompt, which is part of the plan oracle). -/
def planner_node (planResult : List SubQ) (s : GState) : GState :=
  { s with iteration := s.iteration + 1, plan := planResult }

/-- Second phase of `_finder_node`'s merge: add one call's sources to the
accumulated unique list, skipping empty and already-seen URLs. -/
def finder_add (sources : List SourceR) (seen : List String) (acc : List SourceR) :
    List SourceR × List String :=
  match sources with
  | [] => (acc, seen)
  | s :: rest =>
      if s.url ≠ "" ∧ s.url ∉ seen then
        finder_add rest (seen ++ [s.url]) (acc ++ [s])
      else finder_add rest seen acc

/-- Merge loop of `_finder_node` over the per-sub-question find_sources
results: deduplicate by URL and stop after the sub-question whose sources
reach the overall cap. -/
def finder_merge_go (perSq : List (List SourceR)) (seen : List String)
    (acc : List SourceR) (maxSources : Nat) : List SourceR :=
  match perSq with
  | [] => acc
  | sources :: rest =>
      let (acc', seen') := finder_add sources seen acc
      if maxSources ≤ acc'.length then acc'
      else finder_merge_go rest seen' acc' maxSources

/-- `ResearchGraph._finder_node`: merge the per-sub-question source lists
(one oracle entry per plan entry) with URL deduplication, then truncate to
the overall cap. -/
def finder_node (perSq : List (List SourceR)) (s : GState) : GState :=
  let opts := resolveOptions s
  let merged := finder_merge_go (perSq.take s.plan.length) [] [] opts.max_sources
  let merged := if opts.max_sources < merged.length then merged.take opts.max_sources
                else merged
  { s with sources := merged }

/-- Per-source oracle of the summarizer node: `failed` covers any exception
while fetching or summarizing one source (the node skips it), `ok` carries
the summarizer LLM's content for it. -/
inductive SummOutcome where
  | failed
  | ok (llmContent : String)
  deriving Repr, DecidableEq

/-- The `sq_map.get(sq_id, "")` lookup of the summarizer node (a dict
comprehension keyed by sub-question id, later entries winning). -/
def planQuestion (plan : List SubQ) (sqId : String) : String :=
  match plan.reverse.find? (fun sq => sq.id = sqId) with
  | some sq => sq.question
  | none => ""

/-- Python `len` on a JSON value: defined for lists, strings and dicts,
raising (`none`) otherwise. -/
def pyLen : Json → Option Nat
  | .arr items => some items.length
  | .str s => some s.length
  | .obj fields => some fields.length
  | _ => none

/-- Set one key of a finding dict (`finding["k"] = v`). -/
def objSet (j : Json) (k : String) (v : Json) : Json :=
  match j with
  | .obj fields => .obj (objInsert fields k v)
  | other => other

/-- Per-source processing loop of `_summarizer_node`: each processed source
either fails (skipped) or yields a finding built by the summarizer with the
node's `source_info` and `sub_question_id` attached. A finding is appended
before its key facts are counted, so a `len` failure on a non-sized
`key_facts` value keeps the finding but contributes no count. The source
dicts built by the finder carry no `sub_question_id` key, so the node's
lookup always uses the default `"unknown"`. -/
def summ_process (plan : List SubQ) (pairs : List (SourceR × SummOutcome)) :
    List Json × Nat :=
  match pairs with
  | [] => ([], 0)
  | (src, outcome) :: rest =>
      let (fs, total) := summ_process plan rest
      match outcome with
      | .failed => (fs, total)
      | .ok llmContent =>
          let sqId := "unknown"
          let question := planQuestion plan sqId
          let f0 := summarizer_summarize llmContent question src.title src.url
          let f1 := objSet f0 "source_info"
            (.obj [("url", .str src.url), ("title", .str src.title),
                   ("reliability", .str src.reliability)])
          let f2 := objSet f1 "sub_question_id" (.str sqId)
          let contribution := (pyLen (objGetD f2 "key_facts" (.arr []))).getD 0
          (f2 :: fs, contribution + total)

/-- `ResearchGraph._summarizer_node`: process the first
`summarizer_source_limit` sources, merge the new findings after the
existing dict findings, and set `needs_finder_retry` exactly when zero key
facts were extracted and the source list is non-empty. -/
def summarizer_node (outcomes : List SummOutcome) (s : GState) : GState :=
  let opts := resolveOptions s
  let processed := s.sources.take opts.summarizer_source_limit
  let (newFindings, totalKeyFacts) := summ_process s.plan (processed.zip outcomes)
  let existing := s.findings.filter Json.isObj
  { s with
    findings := existing ++ newFindings,
    needs_finder_retry := decide (totalKeyFacts = 0 ∧ s.sources.length > 0) }

/-- `ResearchGraph._reviewer_node`: store the reviewer's gap report. -/
def reviewer_node (llmContent : String) (s : GState) : GState :=
  { s with gaps := reviewer_review llmContent }

/-- `ResearchGraph._writer_node`: store the report and mark the state
completed. -/
def writer_node (report : RReport) (s : GState) : GState :=
  { s with final_report := some report, status := "completed" }

/-- Router label after the reviewer. -/
inductive RouteB where
  | continueLoop
  | finish
  deriving Repr, DecidableEq

/-- Router label after the summarizer. -/
inductive RouteA where
  | retryFinder
  | continueReview
  deriving Repr, DecidableEq

/-- The reviewer router's gap test: coerce a non-dict gap payload to an
empty dict, then take the truthiness of its `has_gaps` entry. -/
def hasGapsOf (s : GState) : Bool :=
  (objGetD (if s.gaps.isObj then s.gaps else Json.obj []) "has_gaps" (.bool false)).truthy

/-- `ResearchGraph._reviewer_router`: finish at the iteration cap, finish
when no gaps, otherwise loop to the planner. -/
def reviewer_router (s : GState) : RouteB :=
  if (resolveOptions s).max_iterations ≤ s.iteration then .finish
  else if ¬ hasGapsOf s then .finish
  else .continueLoop

/-- `ResearchGraph._summarizer_router`: route back to the finder (and
increment the retry counter in place) exactly when the retry flag is set
and fewer than two retries happened; otherwise continue to the reviewer. -/
def summarizer_router (s : GState) : RouteA × GState :=
  if s.needs_finder_retry ∧ s.finder_retry_count < 2 then
    (.retryFinder, { s with finder_retry_count := s.finder_retry_count + 1 })
  else (.continueReview, s)

/-- The state `ResearchGraph.run` hands to the compiled graph: fresh
initial state with the effective options and session memory installed. -/
def run_initial_state (query session_id started_at : String) (opts : GOptions)
    (mem : List Json) : GState :=
  { create_initial_state query session_id started_at with
      options := some opts, session_memory := mem }

/-- Graph nodes (plus the terminal). -/
inductive GNode where
  | planner
  | finder
  | summarizer
  | reviewer
  | writer
  | done
  deriving Repr, DecidableEq

/-- Reachability of a state at a node during one graph run, indexed by the
number of Router-A finder retries taken so far. Node effects are the node
functions above; agent outputs enter through the constructors' oracle
arguments; routers gate the conditional edges exactly as in
`_build_graph`. -/
inductive Reach : GNode → GState → Nat → Prop
  | init (query session_id started_at : String) (opts : GOptions) (mem : List Json)
      (hv : validOptions opts) :
      Reach .planner (run_initial_state query session_id started_at opts mem) 0
  | planner_step {s : GState} {k : Nat} (h : Reach .planner s k) (planResult : List SubQ) :
      Reach .finder (planner_node planResult s) k
  | finder_step {s : GState} {k : Nat} (h : Reach .finder s k)
      (perSq : List (List SourceR)) :
      Reach .summarizer (finder_node perSq s) k
  | summarizer_retry {s : GState} {k : Nat} (h : Reach .summarizer s k)
      (outs : List SummOutcome)
      (hr : (summarizer_router (summarizer_node outs s)).1 = .retryFinder) :
      Reach .finder (summarizer_router (summarizer_node outs s)).2 (k + 1)
  | summarizer_continue {s : GState} {k : Nat} (h : Reach .summarizer s k)
      (outs : List SummOutcome)
      (hr : (summarizer_router (summarizer_node outs s)).1 = .continueReview) :
      Reach .reviewer (summarizer_router (summarizer_node outs s)).2 k
  | reviewer_continue {s : GState} {k : Nat} (h : Reach .reviewer s k) (llm : String)
      (hr : reviewer_router (reviewer_node llm s) = .continueLoop) :
      Reach .planner (reviewer_node llm s) k
  | reviewer_finish {s : GState} {k : Nat} (h : Reach .reviewer s k) (llm : String)
      (hr : reviewer_router (reviewer_node llm s) = .finish) :
      Reach .writer (reviewer_node llm s) k
  | writer_step {s : GState} {k : Nat} (h : Reach .writer s k)
      (llm repairLlm : Except String String) :
      Reach .done (writer_node (write_report s.findings llm repairLlm) s) k

/-- Outcome oracle of the awaited `compiled.ainvoke`: a returned final
state, an `asyncio.TimeoutError`, or any other exception message. -/
inductive RunOutcome where
  | ok (finalState : GState)
  | timeout (seconds : String)
  | exn (msg : String)
  deriving Repr

/-- `ResearchGraph.run`: build the initial state (with
`options or ResearchOptions(max_iterations=self.max_iterations)`), then
return the invocation result, or that same initial state with only status
and error set on the timeout and exception branches. -/
def graph_run (query session_id started_at : String) (opts : Option GOptions)
    (mem : List Json) (defaultMaxIterations : Nat) (outcome : RunOutcome) : GState :=
  let eff := opts.getD { defaultOptions with max_iterations := defaultMaxIterations }
  let init := run_initial_state query session_id started_at eff mem
  match outcome with
  | .ok finalState => finalState
  | .timeout t =>
      { init with status := "error", error := some ("Research timed out after " ++ t ++ "s") }
  | .exn msg => { init with status := "error", error := some msg }

/-- The state built by `ResearchManager.start_research` before spawning the
executor: fresh initial state with status overwritten to "running" and the
validated options installed. -/
def manager_initial_state (query session_id started_at : String) (opts : GOptions) :
    GState :=
  { create_initial_state query session_id started_at with
      status := "running", options := some opts }

/-- What `start_research` registers and persists for a new session. -/
structure StartEffect where
  state : GState
  persisted_status : String
  persisted_is_stopped : Bool
  deriving Repr

/-- `ResearchManager.start_research`: register the running state and
persist an initial snapshot with status "running". -/
def start_research (query session_id started_at : String) (opts : GOptions) :
    StartEffect :=
  { state := manager_initial_state query session_id started_at opts,
    persisted_status := "running",
    persisted_is_stopped := false }

/-- The terminal event kinds a run classification emits. -/
inductive TerminalEvent where
  | completed
  | stopped
  | errored
  deriving Repr, DecidableEq

/-- The session-visible effects of `_run_graph`'s post-run classification. -/
structure RunClassification where
  session_state : GState
  persisted_status : String
  persisted_is_stopped : Bool
  event : TerminalEvent
  saved_report : Option RReport
  deriving Repr

/-- The fallback error text of the missing-report branch. -/
def missingReportMsg : String := "Research graph finished without a valid final report."

/-- `ResearchManager._run_graph`, classification of the graph's returned
state (lines 182-241): the stop check wins (`session.is_stopped()` is the
stop event or a "stopped" status), then a reported error or missing final
report maps to the error snapshot, and otherwise the completed snapshot is
persisted and the report saved. A writer report is a non-empty dict, so
`Option` truthiness models the `not final_report` test. -/
def classify_run (result : GState) (stopEventSet : Bool) : RunClassification :=
  if stopEventSet ∨ result.status = "stopped" then
    { session_state := { result with status := "stopped" },
      persisted_status := "stopped",
      persisted_is_stopped := true,
      event := .stopped,
      saved_report := none }
  else if result.status = "error" ∨ result.final_report = none then
    let msg := match result.error with
      | some e => if e = "" then missingReportMsg else e
      | none => missingReportMsg
    { session_state := { result with status := "error", error := some msg },
      persisted_status := "error",
      persisted_is_stopped := false,
      event := .errored,
      saved_report := none }
  else
    { session_state := { result with status := "completed" },
      persisted_status := "completed",
      persisted_is_stopped := false,
      event := .completed,
      saved_report := result.final_report }

/-- A persisted session row (`SessionRecord`). -/
structure PRecord where
  session_id : String
  query : String
  status : String
  created_at : String
  updated_at : String
  is_stopped : Bool
  options : GOptions
  state : GState
  final_report : Option RReport
  deriving Repr

/-- A rehydrated in-memory session (`ResearchSession` as rebuilt by
`_ensure_initialized`, with the executor task absent). -/
structure HydratedSession where
  session_id : String
  state : GState
  options : GOptions
  created_at : String
  updated_at : String
  stop_event_set : Bool
  deriving Repr

/-- Helper of rehydration: copy the record's final report into the state
when the state blob lacks one (`if record.final_report and not
state.get("final_report")`). -/
def withRecordReport (fr : Option RReport) (st : GState) : GState :=
  match fr, st.final_report with
  | some r, none => { st with final_report := some r }
  | _, _ => st

/-- `ResearchManager._ensure_initialized`, per persisted record: restore
query/session id/options into the state blob, map a persisted "running"
status to "stopped", copy the record's final report into the state when the
blob lacks one, and set the stop event for stopped sessions. -/
def rehydrate_session (r : PRecord) : HydratedSession :=
  let restored := if r.status = "running" then "stopped" else r.status
  let st1 := { r.state with
    query := r.query, session_id := r.session_id,
    status := restored, options := some r.options }
  let st2 := withRecordReport r.final_report st1
  { session_id := r.session_id,
    state := st2,
    options := r.options,
    created_at := r.created_at,
    updated_at := r.updated_at,
    stop_event_set := r.is_stopped || decide (restored = "stopped") }

/-- Spec-side description of first-occurrence URL deduplication, used to
state what "one entry per unique finding URL, in finding order" means. -/
def dedupSeen (seen : List Json) : List Json → List Json
  | [] => []
  | u :: rest => if u ∈ seen then dedupSeen seen rest else u :: dedupSeen (seen ++ [u]) rest

/-- The `source_info.url` value the writer reads off one finding (with the
non-dict coercions applied). -/
def urlOfFinding (f : Json) : Json :=
  let si0 := objGetD f "source_info" (.obj [])
  let si := if si0.isObj then si0 else Json.obj []
  objGetD si "url" (.str "")

/-- The candidate citation URLs of a findings list, in finding order (the
truthy `source_info.url` of each dict finding), as a filterMap. -/
def findingUrls (findings : List Json) : List Json :=
  findings.filterMap (fun f =>
    if f.isObj then
      if (urlOfFinding f).truthy then some (urlOfFinding f) else none
    else none)

/-- The URL field values of a `sources_used` entry list. -/
def sourcesUsedUrls (entries : List Json) : List Json :=
  entries.map (fun e => objGetD e "url" (.str ""))

/-- Total key facts the summarizer node counts for given oracles. -/
def summ_total_key_facts (outs : List SummOutcome) (s : GState) : Nat :=
  (summ_process s.plan ((s.sources.take (resolveOptions s).summarizer_source_limit).zip outs)).2

/-- Sample findings list with one sourced finding (fixture for concrete
instances). -/
def fxFindings : List Json :=
  [.obj [("source_info",
          .obj [("url", .str "https://example.com/source"),
                ("title", .str "Example Source"),
                ("reliability", .str "high")]),
         ("summary", .str "facts"),
         ("key_facts", .arr [.str "f1"])]]

/-- Findings fixture for the citation-splice instance: one finding whose
URL is the only valid citation target. -/
def fxSpliceFindings : List Json :=
  [.obj [("source_info", .obj [("url", .str "good")])]]

/-- Writer LLM content fixture whose executive summary splices into a new
citation-shaped span after the invalid citation is deleted. -/
def fxSpliceContent : String :=
  "\x7b\"title\":\"T\",\"executive_summary\":\"[🔗 t][🔗 d](bad)(u)\",\"sections\":[],\"sources_used\":[],\"confidence_assessment\":\"ok\",\"word_count\":5\x7d"

/-- A query list fixture for the finder: one well-formed search query. -/
def fxQueries : List Json := [.obj [("query", .str "some query"), ("priority", .num "1")]]

/-- Three search hits on one domain (fixture for the per-domain cap). -/
def fxHitsA : List SearchHit :=
  [{ href := "https://d.com/1", title := "A1", body := "" },
   { href := "https://d.com/2", title := "A2", body := "" },
   { href := "https://d.com/3", title := "A3", body := "" }]

/-- Two further search hits on the same domain with fresh URLs. -/
def fxHitsB : List SearchHit :=
  [{ href := "https://d.com/4", title := "B1", body := "" },
   { href := "https://d.com/5", title := "B2", body := "" }]

/-- A graph state fixture with a two-entry plan and default options. -/
def fxPlanState : GState :=
  { run_initial_state "q" "sess" "t0" defaultOptions [] with
      plan := [{ id := "sq-001", question := "q1", status := "pending" },
               { id := "sq-002", question := "q2", status := "pending" }] }

/-- A graph-result fixture: a state that completed with a report while the
stop flag was raised. -/
def fxCompletedResult : GState :=
  writer_node (fallback_report_from_raw "body text" fxFindings)
    (run_initial_state "q" "sess" "t0" defaultOptions [])

/-- A persisted-record fixture with status "running" (crash snapshot). -/
def fxRunningRecord : PRecord :=
  { session_id := "s1",
    query := "crashed query",
    status := "running",
    created_at := "c0",
    updated_at := "u0",
    is_stopped := false,
    options := defaultOptions,
    state := create_initial_state "crashed query" "s1" "t0",
    final_report := some (fallback_report_from_raw "recovered" fxFindings) }

/-! Theorems. Each claim about the session runtime is settled below; helper
lemmas carry no claim by themselves. -/

/-- C10: `create_initial_state` returns status "idle" — outside the session
status set — with zeroed counters, empty collections, no report and no
error; the Manager's `start_research` overwrites the status to "running"
(and installs validated options) in the state it registers, and persists
the session with status "running", so "idle" is never the status of a
managed session. -/
theorem create_initial_state_idle_manager_running :
    (∀ q sid t : String,
      (create_initial_state q sid t).status = "idle" ∧
      "idle" ∉ (["running", "completed", "stopped", "error"] : List String) ∧
      (create_initial_state q sid t).iteration = 0 ∧
      (create_initial_state q sid t).finder_retry_count = 0 ∧
      (create_initial_state q sid t).needs_finder_retry = false ∧
      (create_initial_state q sid t).plan = [] ∧
      (create_initial_state q sid t).sources = [] ∧
      (create_initial_state q sid t).findings = [] ∧
      (create_initial_state q sid t).session_memory = [] ∧
      (create_initial_state q sid t).final_report = none ∧
      (create_initial_state q sid t).error = none ∧
      (create_initial_state q sid t).options = none) ∧
    (∀ (q sid t : String) (opts : GOptions),
      (start_research q sid t opts).state.status = "running" ∧
      (start_research q sid t opts).state.options = some opts ∧
      (start_research q sid t opts).state.query = q ∧
      (start_research q sid t opts).state.session_id = sid ∧
      (start_research q sid t opts).persisted_status = "running" ∧
      (start_research q sid t opts).persisted_is_stopped = false) := by
  constructor
  · intro q sid t
    refine ⟨rfl, by decide, rfl, rfl, rfl, rfl, rfl, rfl, rfl, rfl, rfl, rfl⟩
  · intro q sid t opts
    exact ⟨rfl, rfl, rfl, rfl, rfl, rfl⟩

/-- C9: when `ResearchGraph.run` returns through the timeout or exception
branch, the returned state is the freshly built initial state with only
status (set to "error") and error (set to the message) modified: plan,
sources, findings, gaps, iteration and final_report still hold their
initial values, so no intermediate progress survives in the returned
state. -/
theorem graph_run_error_branches_fresh_state :
    ∀ (q sid t : String) (opts : Option GOptions) (mem : List Json)
      (dmi : Nat) (secs msg : String),
      ((graph_run q sid t opts mem dmi (.timeout secs)).plan = [] ∧
       (graph_run q sid t opts mem dmi (.timeout secs)).sources = [] ∧
       (graph_run q sid t opts mem dmi (.timeout secs)).findings = [] ∧
       (graph_run q sid t opts mem dmi (.timeout secs)).gaps = .null ∧
       (graph_run q sid t opts mem dmi (.timeout secs)).iteration = 0 ∧
       (graph_run q sid t opts mem dmi (.timeout secs)).final_report = none ∧
       (graph_run q sid t opts mem dmi (.timeout secs)).finder_retry_count = 0 ∧
       (graph_run q sid t opts mem dmi (.timeout secs)).status = "error" ∧
       (graph_run q sid t opts mem dmi (.timeout secs)).error =
         some ("Research timed out after " ++ secs ++ "s") ∧
       (graph_run q sid t opts mem dmi (.timeout secs)).session_memory = mem) ∧
      ((graph_run q sid t opts mem dmi (.exn msg)).plan = [] ∧
       (graph_run q sid t opts mem dmi (.exn msg)).sources = [] ∧
       (graph_run q sid t opts mem dmi (.exn msg)).findings = [] ∧
       (graph_run q sid t opts mem dmi (.exn msg)).gaps = .null ∧
       (graph_run q sid t opts mem dmi (.exn msg)).iteration = 0 ∧
       (graph_run q sid t opts mem dmi (.exn msg)).final_report = none ∧
       (graph_run q sid t opts mem dmi (.exn msg)).status = "error" ∧
       (graph_run q sid t opts mem dmi (.exn msg)).error = some msg) ∧
      (graph_run q sid t opts mem dmi (.ok (fxCompletedResult)) = fxCompletedResult) := by
  intro q sid t opts mem dmi secs msg
  exact ⟨⟨rfl, rfl, rfl, rfl, rfl, rfl, rfl, rfl, rfl, rfl⟩,
         ⟨rfl, rfl, rfl, rfl, rfl, rfl, rfl, rfl⟩, rfl⟩

/-- `withRecordReport` only touches the final report field. -/
theorem withRecordReport_status (fr : Option RReport) (st : GState) :
    (withRecordReport fr st).status = st.status := by
  unfold withRecordReport; split <;> rfl

/-- `withRecordReport` preserves the query. -/
theorem withRecordReport_query (fr : Option RReport) (st : GState) :
    (withRecordReport fr st).query = st.query := by
  unfold withRecordReport; split <;> rfl

/-- `withRecordReport` preserves the session id. -/
theorem withRecordReport_session_id (fr : Option RReport) (st : GState) :
    (withRecordReport fr st).session_id = st.session_id := by
  unfold withRecordReport; split <;> rfl

/-- `withRecordReport` preserves the options. -/
theorem withRecordReport_options (fr : Option RReport) (st : GState) :
    (withRecordReport fr st).options = st.options := by
  unfold withRecordReport; split <;> rfl

/-- A present record report guarantees a present rehydrated report. -/
theorem withRecordReport_final_some (fr : RReport) (st : GState) :
    (withRecordReport (some fr) st).final_report ≠ none := by
  unfold withRecordReport
  cases hst : st.final_report with
  | none => simp [hst]
  | some x => simp [hst]

/-- C8: rehydration of a persisted record on Manager first use: a
persisted "running" status is restored as "stopped" with the stop event
set (no auto-resume); any other persisted status is restored unchanged;
and the rehydrated state carries the persisted query, session id, options,
and the final report when the record has one. -/
theorem restart_rehydration_stops_running :
    ∀ r : PRecord,
      (r.status = "running" →
        (rehydrate_session r).state.status = "stopped" ∧
        (rehydrate_session r).stop_event_set = true) ∧
      (r.status ≠ "running" →
        (rehydrate_session r).state.status = r.status) ∧
      (rehydrate_session r).state.query = r.query ∧
      (rehydrate_session r).state.session_id = r.session_id ∧
      (rehydrate_session r).state.options = some r.options ∧
      (rehydrate_session r).options = r.options ∧
      (r.is_stopped = true → (rehydrate_session r).stop_event_set = true) ∧
      (∀ fr, r.final_report = some fr →
        (rehydrate_session r).state.final_report ≠ none) := by
  intro r
  refine ⟨?_, ?_, ?_, ?_, ?_, rfl, ?_, ?_⟩
  · intro hrun
    unfold rehydrate_session
    simp [hrun, withRecordReport_status]
  · intro hne
    unfold rehydrate_session
    simp only [withRecordReport_status, if_neg hne]
  · unfold rehydrate_session
    simp only [withRecordReport_query]
  · unfold rehydrate_session
    simp only [withRecordReport_session_id]
  · unfold rehydrate_session
    simp only [withRecordReport_options]
  · intro hstop
    unfold rehydrate_session
    simp [hstop]
  · intro fr hfr
    unfold rehydrate_session
    simp only [hfr]
    exact withRecordReport_final_some fr _

/-- C8 witness: a concrete crash record with status "running" rehydrates
as stopped with the stop event set and the persisted report carried. -/
theorem restart_rehydration_stops_running_witness :
    fxRunningRecord.status = "running" ∧
    (rehydrate_session fxRunningRecord).state.status = "stopped" ∧
    (rehydrate_session fxRunningRecord).stop_event_set = true ∧
    (rehydrate_session fxRunningRecord).state.final_report ≠ none := by
  refine ⟨rfl, ?_, ?_, ?_⟩
  · exact ((restart_rehydration_stops_running fxRunningRecord).1 rfl).1
  · exact ((restart_rehydration_stops_running fxRunningRecord).1 rfl).2
  · exact (restart_rehydration_stops_running fxRunningRecord).2.2.2.2.2.2.2
      (fallback_report_from_raw "recovered" fxFindings) rfl

/-- C1 counterexample: the planner's defensive parse step is not total —
on content with no JSON object both `_parse_plan_output` and `plan` raise
(`ValueError` / the propagated error), so the five agents do not all return
typed defaults. -/
theorem planner_parse_output_raises :
    (parse_plan_output "hello").isOk = false ∧
    (planner_plan "hello").isOk = false ∧
    parse_plan_output "hello" =
      .error ("No JSON object found in response: " ++ pyTakeStr 200 "hello" ++ "...") := by
  refine ⟨by decide, by decide, rfl⟩

/-- C1 (amended): the summarizer, reviewer and finder parse steps are total
with agent-specific typed defaults on both failure paths (no JSON candidate
found, and JSON decode error on the extracted candidate), and a successful
parse returns the decoded object; the planner's `_parse_plan_output`
instead raises on both failure paths. -/
theorem agent_parsers_typed_defaults :
    (∀ c : String, agent_json_candidate c = none →
      parse_summary c = summarizerDefaultNoJson c ∧
      parse_review c = reviewerDefault ∧
      parse_search_plan c = searchPlanDefault c ∧
      (parse_plan_output c).isOk = false) ∧
    (∀ (c s : String), agent_json_candidate c = some s → json_loads s = none →
      parse_summary c = summarizerDefaultDecodeErr c ∧
      parse_review c = reviewerDefault ∧
      parse_search_plan c = searchPlanDefault c ∧
      (parse_plan_output c).isOk = false) ∧
    (∀ (c s : String) (j : Json), agent_json_candidate c = some s → json_loads s = some j →
      parse_summary c = j ∧
      parse_review c = j ∧
      parse_search_plan c = j ∧
      parse_plan_output c = .ok j) := by
  refine ⟨?_, ?_, ?_⟩
  · intro c hc
    refine ⟨?_, ?_, ?_, ?_⟩ <;>
      simp [parse_summary, parse_review, parse_search_plan, parse_plan_output, hc,
        Except.isOk, Except.toBool]
  · intro c s hc hl
    refine ⟨?_, ?_, ?_, ?_⟩ <;>
      simp [parse_summary, parse_review, parse_search_plan, parse_plan_output, hc, hl,
        Except.isOk, Except.toBool]
  · intro c s j hc hl
    refine ⟨?_, ?_, ?_, ?_⟩ <;>
      simp [parse_summary, parse_review, parse_search_plan, parse_plan_output, hc, hl]

/-- C1 witness: the no-candidate branch instantiated at "hello", and the
decode-error branch at a candidate with malformed JSON. -/
theorem agent_parsers_typed_defaults_witness :
    (agent_json_candidate "hello" = none ∧
      parse_summary "hello" = summarizerDefaultNoJson "hello" ∧
      parse_review "hello" = reviewerDefault) ∧
    (agent_json_candidate "\x7bbad\x7d" = some "\x7bbad\x7d" ∧
      json_loads "\x7bbad\x7d" = none ∧
      parse_summary "\x7bbad\x7d" = summarizerDefaultDecodeErr "\x7bbad\x7d") := by
  have h1 := (agent_parsers_typed_defaults.1 "hello" (by decide))
  have h2 := (agent_parsers_typed_defaults.2.1 "\x7bbad\x7d" "\x7bbad\x7d" (by decide) (by decide))
  exact ⟨⟨by decide, h1.1, h1.2.1⟩, ⟨by decide, by decide, h2.1⟩⟩

/-- The planner node increments iteration by exactly one. -/
theorem planner_node_iteration (p : List SubQ) (s : GState) :
    (planner_node p s).iteration = s.iteration + 1 := rfl

/-- Frame lemmas: the non-planner nodes and the summarizer router keep the
iteration counter and the options unchanged. -/
theorem nodes_preserve_iteration :
    (∀ (o : List (List SourceR)) (s : GState), (finder_node o s).iteration = s.iteration) ∧
    (∀ (o : List SummOutcome) (s : GState), (summarizer_node o s).iteration = s.iteration) ∧
    (∀ (c : String) (s : GState), (reviewer_node c s).iteration = s.iteration) ∧
    (∀ (r : RReport) (s : GState), (writer_node r s).iteration = s.iteration) ∧
    (∀ s : GState, (summarizer_router s).2.iteration = s.iteration) := by
  refine ⟨fun o s => rfl, fun o s => rfl, fun c s => rfl, fun r s => rfl, fun s => ?_⟩
  unfold summarizer_router
  split <;> rfl

/-- Frame lemmas: no node or router changes the options payload. -/
theorem nodes_preserve_options :
    (∀ (p : List SubQ) (s : GState), (planner_node p s).options = s.options) ∧
    (∀ (o : List (List SourceR)) (s : GState), (finder_node o s).options = s.options) ∧
    (∀ (o : List SummOutcome) (s : GState), (summarizer_node o s).options = s.options) ∧
    (∀ (c : String) (s : GState), (reviewer_node c s).options = s.options) ∧
    (∀ (r : RReport) (s : GState), (writer_node r s).options = s.options) ∧
    (∀ s : GState, (summarizer_router s).2.options = s.options) := by
  refine ⟨fun p s => rfl, fun o s => rfl, fun o s => rfl, fun c s => rfl, fun r s => rfl,
    fun s => ?_⟩
  unfold summarizer_router
  split <;> rfl

/-- Frame lemmas: only the summarizer router touches the finder retry
counter. -/
theorem nodes_preserve_retry_count :
    (∀ (p : List SubQ) (s : GState), (planner_node p s).finder_retry_count = s.finder_retry_count) ∧
    (∀ (o : List (List SourceR)) (s : GState), (finder_node o s).finder_retry_count = s.finder_retry_count) ∧
    (∀ (o : List SummOutcome) (s : GState), (summarizer_node o s).finder_retry_count = s.finder_retry_count) ∧
    (∀ (c : String) (s : GState), (reviewer_node c s).finder_retry_count = s.finder_retry_count) ∧
    (∀ (r : RReport) (s : GState), (writer_node r s).finder_retry_count = s.finder_retry_count) :=
  ⟨fun p s => rfl, fun o s => rfl, fun o s => rfl, fun c s => rfl, fun r s => rfl⟩

/-- A continue decision of Router B implies the iteration is strictly below
the cap. -/
theorem reviewer_router_continue_lt {s : GState}
    (h : reviewer_router s = .continueLoop) :
    s.iteration < (resolveOptions s).max_iterations := by
  unfold reviewer_router at h
  by_cases hc : (resolveOptions s).max_iterations ≤ s.iteration
  · simp [hc] at h
  · exact Nat.lt_of_not_le hc

/-- A retry decision of Router A implies the retry flag and the counter
bound held. -/
theorem summarizer_router_retry_cond {s : GState}
    (h : (summarizer_router s).1 = .retryFinder) :
    s.needs_finder_retry = true ∧ s.finder_retry_count < 2 := by
  unfold summarizer_router at h
  by_cases hc : (s.needs_finder_retry = true ∧ s.finder_retry_count < 2)
  · exact hc
  · rw [if_neg ?_] at h
    · simp at h
    · intro hcond
      exact hc ⟨hcond.1, hcond.2⟩

/-- Router A under the retry condition. -/
theorem summarizer_router_eq_retry {s : GState}
    (h1 : s.needs_finder_retry = true) (h2 : s.finder_retry_count < 2) :
    summarizer_router s =
      (RouteA.retryFinder, { s with finder_retry_count := s.finder_retry_count + 1 }) := by
  unfold summarizer_router
  rw [if_pos ⟨h1, h2⟩]

/-- Router A outside the retry condition. -/
theorem summarizer_router_eq_continue {s : GState}
    (h : s.needs_finder_retry = false ∨ 2 ≤ s.finder_retry_count) :
    summarizer_router s = (RouteA.continueReview, s) := by
  unfold summarizer_router
  rw [if_neg ?_]
  intro hcond
  rcases h with h | h
  · rw [h] at hcond
    exact Bool.false_ne_true hcond.1
  · exact Nat.not_lt_of_le h hcond.2

/-- A continue decision of Router A leaves the state unchanged. -/
theorem summarizer_router_continue_snd {s : GState}
    (h : (summarizer_router s).1 = .continueReview) :
    (summarizer_router s).2 = s := by
  unfold summarizer_router at h ⊢
  by_cases hc : (s.needs_finder_retry = true ∧ s.finder_retry_count < 2)
  · rw [if_pos hc] at h
    simp at h
  · rw [if_neg hc]

/-- The reachability invariant for the iteration counter: within the cap
everywhere, and strictly below it on entry to the planner. -/
theorem reach_iteration_invariant :
    ∀ {n : GNode} {s : GState} {k : Nat}, Reach n s k →
      1 ≤ (resolveOptions s).max_iterations ∧
      s.iteration ≤ (resolveOptions s).max_iterations ∧
      (n = GNode.planner → s.iteration < (resolveOptions s).max_iterations) := by
  intro n s k h
  induction h with
  | init q sid t opts mem hv =>
      exact ⟨hv.1, Nat.zero_le _, fun _ => hv.1⟩
  | planner_step h planResult ih =>
      obtain ⟨h1, _, h3⟩ := ih
      exact ⟨h1, Nat.succ_le_of_lt (h3 rfl), fun hq => absurd hq (by decide)⟩
  | finder_step h perSq ih =>
      obtain ⟨h1, h2, _⟩ := ih
      exact ⟨h1, h2, fun hq => absurd hq (by decide)⟩
  | summarizer_retry h outs hr ih =>
      obtain ⟨h1, h2, _⟩ := ih
      obtain ⟨hc1, hc2⟩ := summarizer_router_retry_cond hr
      rw [summarizer_router_eq_retry hc1 hc2]
      exact ⟨h1, h2, fun hq => absurd hq (by decide)⟩
  | summarizer_continue h outs hr ih =>
      obtain ⟨h1, h2, _⟩ := ih
      rw [summarizer_router_continue_snd hr]
      exact ⟨h1, h2, fun hq => absurd hq (by decide)⟩
  | reviewer_continue h llm hr ih =>
      obtain ⟨h1, h2, _⟩ := ih
      exact ⟨h1, h2, fun _ => reviewer_router_continue_lt hr⟩
  | reviewer_finish h llm hr ih =>
      obtain ⟨h1, h2, _⟩ := ih
      exact ⟨h1, h2, fun hq => absurd hq (by decide)⟩
  | writer_step h llm repairLlm ih =>
      obtain ⟨h1, h2, _⟩ := ih
      exact ⟨h1, h2, fun hq => absurd hq (by decide)⟩

/-- The reachability invariant for the finder retry counter: it equals the
number of Router-A retry transitions taken and never exceeds 2. -/
theorem reach_retry_invariant :
    ∀ {n : GNode} {s : GState} {k : Nat}, Reach n s k →
      s.finder_retry_count = k ∧ k ≤ 2 := by
  intro n s k h
  induction h with
  | init q sid t opts mem hv => exact ⟨rfl, by decide⟩
  | planner_step h planResult ih => exact ih
  | finder_step h perSq ih => exact ih
  | @summarizer_retry s0 k0 h outs hr ih =>
      obtain ⟨h1, _⟩ := ih
      obtain ⟨hc1, hc2⟩ := summarizer_router_retry_cond hr
      rw [summarizer_router_eq_retry hc1 hc2]
      have hc2' : s0.finder_retry_count < 2 := hc2
      exact ⟨congrArg (· + 1) h1, by omega⟩
  | summarizer_continue h outs hr ih =>
      rw [summarizer_router_continue_snd hr]
      exact ih
  | reviewer_continue h llm hr ih => exact ih
  | reviewer_finish h llm hr ih => exact ih
  | writer_step h llm repairLlm ih => exact ih

/-- C2: in every reachable state of a graph run the iteration counter is
at most `options.max_iterations`; the planner node is the only operation
that changes the counter, incrementing it by exactly one per invocation
from an initial value of zero; and Router B returns finish whenever the
cap is reached, finish when `has_gaps` is falsy below the cap, and
continue (back to the planner) when gaps remain below the cap. -/
theorem graph_iteration_bounded :
    (∀ (n : GNode) (s : GState) (k : Nat), Reach n s k →
      s.iteration ≤ (resolveOptions s).max_iterations) ∧
    (∀ (p : List SubQ) (s : GState), (planner_node p s).iteration = s.iteration + 1) ∧
    (∀ (o : List (List SourceR)) (s : GState), (finder_node o s).iteration = s.iteration) ∧
    (∀ (o : List SummOutcome) (s : GState), (summarizer_node o s).iteration = s.iteration) ∧
    (∀ (c : String) (s : GState), (reviewer_node c s).iteration = s.iteration) ∧
    (∀ (r : RReport) (s : GState), (writer_node r s).iteration = s.iteration) ∧
    (∀ s : GState, (summarizer_router s).2.iteration = s.iteration) ∧
    (∀ (q sid t : String) (opts : GOptions) (mem : List Json),
      (run_initial_state q sid t opts mem).iteration = 0) ∧
    (∀ s : GState, (resolveOptions s).max_iterations ≤ s.iteration →
      reviewer_router s = .finish) ∧
    (∀ s : GState, hasGapsOf s = false → reviewer_router s = .finish) ∧
    (∀ s : GState, s.iteration < (resolveOptions s).max_iterations →
      hasGapsOf s = true → reviewer_router s = .continueLoop) := by
  refine ⟨?_, planner_node_iteration, nodes_preserve_iteration.1,
    nodes_preserve_iteration.2.1, nodes_preserve_iteration.2.2.1,
    nodes_preserve_iteration.2.2.2.1, nodes_preserve_iteration.2.2.2.2,
    fun q sid t opts mem => rfl, ?_, ?_, ?_⟩
  · intro n s k h
    exact (reach_iteration_invariant h).2.1
  · intro s hcap
    unfold reviewer_router
    rw [if_pos hcap]
  · intro s hgaps
    unfold reviewer_router
    by_cases hcap : (resolveOptions s).max_iterations ≤ s.iteration
    · rw [if_pos hcap]
    · rw [if_neg hcap, if_pos (by simp [hgaps])]
  · intro s hlt hgaps
    unfold reviewer_router
    rw [if_neg (Nat.not_le_of_lt hlt), if_neg (by simp [hgaps])]

/-- C2 witness: the invariant instantiated on the initial state of a run
with default options, and Router B decisions on concrete states. -/
theorem graph_iteration_bounded_witness :
    ((run_initial_state "q" "sess" "t0" defaultOptions []).iteration ≤
      (resolveOptions (run_initial_state "q" "sess" "t0" defaultOptions [])).max_iterations) ∧
    reviewer_router { run_initial_state "q" "sess" "t0" defaultOptions [] with iteration := 3 } =
      .finish ∧
    reviewer_router { run_initial_state "q" "sess" "t0" defaultOptions [] with
      iteration := 1, gaps := Json.obj [("has_gaps", .bool true)] } = .continueLoop := by
  refine ⟨?_, ?_, ?_⟩
  · exact graph_iteration_bounded.1 .planner _ 0
      (Reach.init "q" "sess" "t0" defaultOptions [] (by decide))
  · exact graph_iteration_bounded.2.2.2.2.2.2.2.2.1 _ (by decide)
  · exact graph_iteration_bounded.2.2.2.2.2.2.2.2.2.2 _ (by decide) (by decide)

/-- C3: Router A routes back to the finder (incrementing the retry counter
in place) exactly when the summarizer requested a retry and fewer than two
retries have happened, and otherwise routes to the reviewer unchanged; the
summarizer node raises the retry flag exactly when it counted zero key
facts over a non-empty source list; and in any run the retry counter equals
the number of Router-A retry transitions and never exceeds 2, so the finder
is re-entered from Router A at most twice. -/
theorem summarizer_retry_loop_bounded :
    (∀ s : GState, s.needs_finder_retry = true → s.finder_retry_count < 2 →
      summarizer_router s =
        (RouteA.retryFinder, { s with finder_retry_count := s.finder_retry_count + 1 })) ∧
    (∀ s : GState, s.needs_finder_retry = false ∨ 2 ≤ s.finder_retry_count →
      summarizer_router s = (RouteA.continueReview, s)) ∧
    (∀ (outs : List SummOutcome) (s : GState),
      ((summarizer_node outs s).needs_finder_retry = true ↔
        (summ_total_key_facts outs s = 0 ∧ s.sources ≠ []))) ∧
    (∀ (n : GNode) (s : GState) (k : Nat), Reach n s k →
      s.finder_retry_count = k ∧ k ≤ 2) := by
  refine ⟨fun s => summarizer_router_eq_retry, fun s => summarizer_router_eq_continue, ?_, ?_⟩
  · intro outs s
    show (decide (summ_total_key_facts outs s = 0 ∧ s.sources.length > 0) = true ↔ _)
    rw [decide_eq_true_iff]
    constructor
    · rintro ⟨hz, hpos⟩
      exact ⟨hz, List.ne_nil_of_length_pos hpos⟩
    · rintro ⟨hz, hne⟩
      exact ⟨hz, List.length_pos_of_ne_nil hne⟩
  · intro n s k h
    exact reach_retry_invariant h

/-- C3 witness: the retry branch on a concrete state with the flag raised
and a zero counter, the continue branch at the cap, and the invariant on
the initial state. -/
theorem summarizer_retry_loop_bounded_witness :
    summarizer_router { run_initial_state "q" "sess" "t0" defaultOptions [] with
        needs_finder_retry := true } =
      (RouteA.retryFinder, { run_initial_state "q" "sess" "t0" defaultOptions [] with
        needs_finder_retry := true, finder_retry_count := 1 }) ∧
    summarizer_router { run_initial_state "q" "sess" "t0" defaultOptions [] with
        needs_finder_retry := true, finder_retry_count := 2 } =
      (RouteA.continueReview, { run_initial_state "q" "sess" "t0" defaultOptions [] with
        needs_finder_retry := true, finder_retry_count := 2 }) ∧
    (run_initial_state "q" "sess" "t0" defaultOptions []).finder_retry_count = 0 := by
  refine ⟨?_, ?_, ?_⟩
  · exact summarizer_retry_loop_bounded.1 _ rfl (by decide)
  · exact summarizer_retry_loop_bounded.2.1 _ (Or.inr (by decide))
  · exact (summarizer_retry_loop_bounded.2.2.2 .planner _ 0
      (Reach.init "q" "sess" "t0" defaultOptions [] (by decide))).1

/-- Domain counts distribute over append. -/
theorem countDomain_append (d : String) (xs ys : List SourceR) :
    countDomain d (xs ++ ys) = countDomain d xs + countDomain d ys := by
  unfold countDomain
  rw [List.filter_append, List.length_append]

/-- Domain count of a singleton. -/
theorem countDomain_single (d : String) (s : SourceR) :
    countDomain d [s] = if s.domain = d then 1 else 0 := by
  unfold countDomain
  by_cases h : s.domain = d <;> simp [h]

/-- `countsInc` bumps exactly the incremented domain's counter. -/
theorem countsGet_countsInc (counts : List (String × Nat)) (d0 d : String) :
    countsGet (countsInc counts d0) d = countsGet counts d + (if d0 = d then 1 else 0) := by
  induction counts with
  | nil =>
      by_cases h : d = d0
      · subst h
        simp [countsInc, countsGet, List.lookup]
      · have h' : ¬ d0 = d := fun hh => h hh.symm
        have hb : (d == d0) = false := beq_eq_false_iff_ne.mpr h
        simp [countsInc, countsGet, List.lookup, hb, h']
  | cons kv rest ih =>
      obtain ⟨k, v⟩ := kv
      simp only [countsInc]
      by_cases hk : k = d0
      · rw [if_pos hk]
        subst hk
        by_cases hdk : d = k
        · have hb : (d == k) = true := beq_iff_eq.mpr hdk
          have hb2 : (k = d) := hdk.symm
          simp [countsGet, List.lookup, hb, hb2]
        · have h2 : ¬ k = d := fun hh => hdk hh.symm
          have hb : (d == k) = false := beq_eq_false_iff_ne.mpr hdk
          simp [countsGet, List.lookup, hb, h2]
      · rw [if_neg hk]
        by_cases hdk : d = k
        · have h2 : ¬ d0 = d := fun hh => hk ((hh.trans hdk).symm)
          have hb : (d == k) = true := beq_iff_eq.mpr hdk
          simp [countsGet, List.lookup, hb, h2]
        · have hb : (d == k) = false := beq_eq_false_iff_ne.mpr hdk
          simp only [countsGet, List.lookup, hb] at ih ⊢
          exact ih

/-- Invariant of the inner `find_sources` loop: if the per-domain counter
dictionary dominates the accumulated counts and the accumulated counts obey
the cap, both facts survive the loop. -/
theorem find_sources_hits_bound (hits : List SearchHit) (sqId now : String)
    (m lim : Nat) (acc : List SourceR) (counts : List (String × Nat))
    (hdom : ∀ d, countDomain d acc ≤ countsGet counts d)
    (hbound : ∀ d, countDomain d acc ≤ m) :
    (∀ d, countDomain d (find_sources_hits hits sqId now m lim acc counts).1 ≤ m) ∧
    (∀ d, countDomain d (find_sources_hits hits sqId now m lim acc counts).1 ≤
          countsGet (find_sources_hits hits sqId now m lim acc counts).2.1 d) := by
  induction hits generalizing acc counts with
  | nil => exact ⟨hbound, hdom⟩
  | cons hit rest ih =>
      by_cases hskip : m ≤ countsGet counts (create_source hit sqId now).domain
      · simpa [find_sources_hits, hskip] using ih acc counts hdom hbound
      · have hlt := Nat.lt_of_not_le hskip
        have hdom' : ∀ d,
            countDomain d (acc ++ [create_source hit sqId now]) ≤
              countsGet (countsInc counts (create_source hit sqId now).domain) d := by
          intro d
          rw [countDomain_append, countDomain_single, countsGet_countsInc]
          by_cases hd : (create_source hit sqId now).domain = d
          · rw [if_pos hd]
            exact Nat.add_le_add_right (hdom d) 1
          · rw [if_neg hd]
            exact Nat.add_le_add_right (hdom d) 0
        have hbound' : ∀ d,
            countDomain d (acc ++ [create_source hit sqId now]) ≤ m := by
          intro d
          rw [countDomain_append, countDomain_single]
          by_cases hd : (create_source hit sqId now).domain = d
          · rw [if_pos hd]
            have hlt' : countsGet counts d < m := hd ▸ hlt
            have := hdom d
            omega
          · rw [if_neg hd]
            have := hbound d
            omega
        by_cases hstop : lim ≤ (acc ++ [create_source hit sqId now]).length
        · have hgoal : find_sources_hits (hit :: rest) sqId now m lim acc counts =
              (acc ++ [create_source hit sqId now],
               countsInc counts (create_source hit sqId now).domain, true) := by
            simp only [find_sources_hits]
            rw [if_neg hskip, if_pos hstop]
          rw [hgoal]
          exact ⟨hbound', hdom'⟩
        · have hgoal : find_sources_hits (hit :: rest) sqId now m lim acc counts =
              find_sources_hits rest sqId now m lim (acc ++ [create_source hit sqId now])
                (countsInc counts (create_source hit sqId now).domain) := by
            simp only [find_sources_hits]
            rw [if_neg hskip, if_neg hstop]
          rw [hgoal]
          exact ih _ _ hdom' hbound'

/-- Invariant of the outer `find_sources` loop: the cap on accumulated
domain counts survives every executed query. -/
theorem find_sources_queries_bound (pairs : List (Json × List SearchHit))
    (sqId now : String) (m rpq lim : Nat) (acc : List SourceR)
    (counts : List (String × Nat))
    (hdom : ∀ d, countDomain d acc ≤ countsGet counts d)
    (hbound : ∀ d, countDomain d acc ≤ m) :
    ∀ d, countDomain d (find_sources_queries pairs sqId now m rpq lim acc counts) ≤ m := by
  induction pairs generalizing acc counts with
  | nil => exact hbound
  | cons pair rest ih =>
      obtain ⟨qd, hits⟩ := pair
      by_cases hobj : qd.isObj = true
      · by_cases hq : (objGetD qd "query" (.str "")).truthy = true
        · have hinner := find_sources_hits_bound (hits.take rpq) sqId now m lim acc counts
            hdom hbound
          rcases he : find_sources_hits (hits.take rpq) sqId now m lim acc counts with
            ⟨acc', counts', flag⟩
          rw [he] at hinner
          by_cases hstop : lim ≤ acc'.length
          · intro d
            simpa [find_sources_queries, hobj, hq, he, hstop] using hinner.1 d
          · intro d
            have := ih acc' counts' (fun d0 => hinner.2 d0) (fun d0 => hinner.1 d0)
            simpa [find_sources_queries, hobj, hq, he, hstop] using this d
        · intro d
          simpa [find_sources_queries, hobj, hq] using ih acc counts hdom hbound d
      · intro d
        simpa [find_sources_queries, hobj] using ih acc counts hdom hbound d

/-- Invariant of `_finder_node`'s per-call merge: accumulated URLs are
distinct and recorded in the seen set. -/
theorem finder_add_nodup (sources : List SourceR) (seen : List String)
    (acc : List SourceR)
    (hsub : ∀ u ∈ acc.map (fun s => s.url), u ∈ seen)
    (hnd : (acc.map (fun s => s.url)).Nodup) :
    ((finder_add sources seen acc).1.map (fun s => s.url)).Nodup ∧
    (∀ u ∈ (finder_add sources seen acc).1.map (fun s => s.url),
      u ∈ (finder_add sources seen acc).2) := by
  induction sources generalizing seen acc with
  | nil => exact ⟨hnd, hsub⟩
  | cons s rest ih =>
      by_cases hadd : s.url ≠ "" ∧ s.url ∉ seen
      · have hnotin : s.url ∉ acc.map (fun t => t.url) := fun hin => hadd.2 (hsub _ hin)
        have hsub' : ∀ u ∈ (acc ++ [s]).map (fun t => t.url), u ∈ seen ++ [s.url] := by
          intro u hu
          rw [List.map_append] at hu
          rcases List.mem_append.mp hu with hu | hu
          · exact List.mem_append.mpr (Or.inl (hsub u hu))
          · simp only [List.map_cons, List.map_nil, List.mem_singleton] at hu
            exact List.mem_append.mpr (Or.inr (by simp [hu]))
        have hnd' : ((acc ++ [s]).map (fun t => t.url)).Nodup := by
          rw [List.map_append]
          refine List.Nodup.append hnd (by simp) ?_
          intro u hu hv
          simp only [List.map_cons, List.map_nil, List.mem_singleton] at hv
          exact hnotin (hv ▸ hu)
        simpa [finder_add, hadd] using ih (seen ++ [s.url]) (acc ++ [s]) hsub' hnd'
      · simpa [finder_add, hadd] using ih seen acc hsub hnd

/-- The merged unique-source list of `_finder_node` has pairwise distinct
URLs. -/
theorem finder_merge_nodup (perSq : List (List SourceR)) (seen : List String)
    (acc : List SourceR) (maxS : Nat)
    (hsub : ∀ u ∈ acc.map (fun s => s.url), u ∈ seen)
    (hnd : (acc.map (fun s => s.url)).Nodup) :
    ((finder_merge_go perSq seen acc maxS).map (fun s => s.url)).Nodup := by
  induction perSq generalizing seen acc with
  | nil => exact hnd
  | cons sources rest ih =>
      have hstep := finder_add_nodup sources seen acc hsub hnd
      rcases he : finder_add sources seen acc with ⟨acc', seen'⟩
      rw [he] at hstep
      by_cases hstop : maxS ≤ acc'.length
      · simpa [finder_merge_go, he, hstop] using hstep.1
      · simpa [finder_merge_go, he, hstop] using
          ih seen' acc' (fun u hu => hstep.2 u hu) hstep.1

/-- C7 (amended): each single `find_sources` call with diversity enabled
returns at most two sources per domain, and the merged per-sub-question
list the finder node stores is URL-deduplicated; but the node applies no
per-domain cap across sub-questions, so only the per-call bound holds. -/
theorem find_sources_domain_cap :
    (∀ (queries : List Json) (results : List (List SearchHit)) (sqId now : String)
       (rpq lim : Nat) (d : String),
      countDomain d (find_sources queries results sqId now rpq lim true) ≤ 2) ∧
    (∀ (perSq : List (List SourceR)) (s : GState),
      (((finder_node perSq s).sources).map (fun src => src.url)).Nodup) := by
  constructor
  · intro queries results sqId now rpq lim d
    unfold find_sources
    exact find_sources_queries_bound (queries.zip results) sqId now 2 rpq lim [] []
      (fun d0 => by simp [countDomain, countsGet, List.lookup])
      (fun d0 => by simp [countDomain]) d
  · intro perSq s
    unfold finder_node
    have hmerge := finder_merge_nodup (perSq.take s.plan.length) [] []
      (resolveOptions s).max_sources (by simp) (by simp)
    by_cases htr : (resolveOptions s).max_sources <
        (finder_merge_go (perSq.take s.plan.length) [] [] (resolveOptions s).max_sources).length
    · simp only [htr, if_pos]
      have hsub : ((finder_merge_go (perSq.take s.plan.length) [] []
          (resolveOptions s).max_sources).take (resolveOptions s).max_sources).Sublist
          (finder_merge_go (perSq.take s.plan.length) [] [] (resolveOptions s).max_sources) :=
        List.take_sublist _ _
      exact List.Nodup.sublist (hsub.map (fun src => src.url)) hmerge
    · simpa [htr] using hmerge

/-- C7 counterexample: two sub-questions whose (individually capped)
find_sources results share one domain; the finder node's merged,
URL-deduplicated list then carries four sources of that domain, violating
the claimed per-domain bound of two on the stored list. -/
theorem finder_node_merged_domain_cap_violated :
    countDomain "d.com" (find_sources fxQueries [fxHitsA] "sq-001" "t0" 5 4 true) = 2 ∧
    countDomain "d.com" (find_sources fxQueries [fxHitsB] "sq-002" "t0" 5 4 true) = 2 ∧
    countDomain "d.com"
      ((finder_node
        [find_sources fxQueries [fxHitsA] "sq-001" "t0" 5 4 true,
         find_sources fxQueries [fxHitsB] "sq-002" "t0" 5 4 true] fxPlanState).sources) = 4 ∧
    ¬ (countDomain "d.com"
      ((finder_node
        [find_sources fxQueries [fxHitsA] "sq-001" "t0" 5 4 true,
         find_sources fxQueries [fxHitsB] "sq-002" "t0" 5 4 true] fxPlanState).sources) ≤ 2) := by
  refine ⟨?_, ?_, ?_, ?_⟩ <;> decide

/-- The url field of the entry `_extract_sources_from_findings` builds. -/
theorem extract_entry_url (a : String) (url t d0 r c : Json) :
    objGetD (Json.obj [("id", .str a), ("url", url), ("title", t), ("domain", d0),
      ("reliability", r), ("confidence", c)]) "url" (.str "") = url := rfl

/-- `findingUrls` on a dict finding with a truthy URL. -/
theorem findingUrls_cons_hit (f : Json) (rest : List Json)
    (hobj : f.isObj = true) (hurl : (urlOfFinding f).truthy = true) :
    findingUrls (f :: rest) = urlOfFinding f :: findingUrls rest := by
  simp [findingUrls, List.filterMap_cons, hobj, hurl]

/-- `findingUrls` skips non-dict findings and falsy URLs. -/
theorem findingUrls_cons_skip (f : Json) (rest : List Json)
    (h : f.isObj = false ∨ (urlOfFinding f).truthy = false) :
    findingUrls (f :: rest) = findingUrls rest := by
  rcases h with h | h
  · simp [findingUrls, List.filterMap_cons, h]
  · by_cases hobj : f.isObj = true
    · simp [findingUrls, List.filterMap_cons, hobj, h]
    · simp [findingUrls, List.filterMap_cons, Bool.eq_false_iff.mpr hobj]

/-- Deduplication equation: an already-seen URL is dropped. -/
theorem dedupSeen_cons_mem {seen : List Json} {u : Json} (h : u ∈ seen) (us : List Json) :
    dedupSeen seen (u :: us) = dedupSeen seen us := by
  simp [dedupSeen, h]

/-- Deduplication equation: a fresh URL is kept and recorded. -/
theorem dedupSeen_cons_not_mem {seen : List Json} {u : Json} (h : u ∉ seen) (us : List Json) :
    dedupSeen seen (u :: us) = u :: dedupSeen (seen ++ [u]) us := by
  simp [dedupSeen, h]

/-- The URL trace of the extraction loop: starting from a seen set that
records the accumulated URLs, the loop appends exactly the first-occurrence
deduplication of the remaining findings' URLs. -/
theorem extract_go_urls (findings : List Json) :
    ∀ (i : Nat) (seen acc : List Json),
      seen = sourcesUsedUrls acc.reverse →
      sourcesUsedUrls (extract_sources_go findings i seen acc) =
        sourcesUsedUrls acc.reverse ++ dedupSeen seen (findingUrls findings) := by
  induction findings with
  | nil =>
      intro i seen acc hseen
      simp [extract_sources_go, findingUrls, dedupSeen]
  | cons f rest ih =>
      intro i seen acc hseen
      by_cases hobj : f.isObj = true
      · by_cases hurl : (urlOfFinding f).truthy = true
        · by_cases hmem : urlOfFinding f ∈ seen
          · have hstep : extract_sources_go (f :: rest) i seen acc =
                extract_sources_go rest (i + 1) seen acc := by
              simp only [extract_sources_go, hobj, if_true]
              rw [if_neg (by
                intro hc
                exact hc.2 hmem)]
            rw [hstep, ih (i + 1) seen acc hseen,
              findingUrls_cons_hit f rest hobj hurl, dedupSeen_cons_mem hmem]
          · have hstep : extract_sources_go (f :: rest) i seen acc =
                extract_sources_go rest (i + 1) (seen ++ [urlOfFinding f])
                  (Json.obj [("id", .str ("source-" ++ pad3 i)),
                    ("url", urlOfFinding f),
                    ("title", objGetD (if (objGetD f "source_info" (.obj [])).isObj
                      then objGetD f "source_info" (.obj []) else Json.obj [])
                      "title" (.str "Unknown")),
                    ("domain", .str (extract_domain (urlOfFinding f))),
                    ("reliability", objGetD (if (objGetD f "source_info" (.obj [])).isObj
                      then objGetD f "source_info" (.obj []) else Json.obj [])
                      "reliability" (.str "medium")),
                    ("confidence", objGetD (if (objGetD f "metadata" (.obj [])).isObj
                      then objGetD f "metadata" (.obj []) else Json.obj [])
                      "confidence" (.num "0.8"))] :: acc) := by
              simp only [extract_sources_go, hobj, if_true]
              rw [if_pos ⟨hurl, hmem⟩]
              rfl
            have hurlacc : ∀ acc0 : List Json,
                sourcesUsedUrls (acc0 ++
                  [Json.obj [("id", .str ("source-" ++ pad3 i)),
                    ("url", urlOfFinding f),
                    ("title", objGetD (if (objGetD f "source_info" (.obj [])).isObj
                      then objGetD f "source_info" (.obj []) else Json.obj [])
                      "title" (.str "Unknown")),
                    ("domain", .str (extract_domain (urlOfFinding f))),
                    ("reliability", objGetD (if (objGetD f "source_info" (.obj [])).isObj
                      then objGetD f "source_info" (.obj []) else Json.obj [])
                      "reliability" (.str "medium")),
                    ("confidence", objGetD (if (objGetD f "metadata" (.obj [])).isObj
                      then objGetD f "metadata" (.obj []) else Json.obj [])
                      "confidence" (.num "0.8"))]]) =
                sourcesUsedUrls acc0 ++ [urlOfFinding f] := by
              intro acc0
              simp only [sourcesUsedUrls, List.map_append, List.map_cons, List.map_nil,
                extract_entry_url]
            rw [hstep]
            rw [ih (i + 1) (seen ++ [urlOfFinding f]) _ (by
              rw [hseen, List.reverse_cons, hurlacc acc.reverse])]
            rw [List.reverse_cons, hurlacc acc.reverse,
              findingUrls_cons_hit f rest hobj hurl, dedupSeen_cons_not_mem hmem,
              List.append_assoc]
            rfl
        · have hstep : extract_sources_go (f :: rest) i seen acc =
              extract_sources_go rest (i + 1) seen acc := by
            simp only [extract_sources_go, hobj, if_true]
            rw [if_neg (by
              intro hc
              exact hurl hc.1)]
          rw [hstep, ih (i + 1) seen acc hseen,
            findingUrls_cons_skip f rest (Or.inr (Bool.eq_false_iff.mpr hurl))]
      · have hstep : extract_sources_go (f :: rest) i seen acc =
            extract_sources_go rest (i + 1) seen acc := by
          simp only [extract_sources_go]
          rw [if_neg (by simpa using hobj)]
        rw [hstep, ih (i + 1) seen acc hseen,
          findingUrls_cons_skip f rest (Or.inl (Bool.eq_false_iff.mpr hobj))]

/-- Deduplication yields a sublist (order-preserving selection). -/
theorem dedupSeen_sublist : ∀ (us seen : List Json), (dedupSeen seen us).Sublist us := by
  intro us
  induction us with
  | nil => intro seen; simp [dedupSeen]
  | cons u rest ih =>
      intro seen
      by_cases hmem : u ∈ seen
      · rw [dedupSeen_cons_mem hmem]
        exact (ih seen).cons u
      · rw [dedupSeen_cons_not_mem hmem]
        exact (ih (seen ++ [u])).cons₂ u

/-- Deduplicated URLs avoid the seen set. -/
theorem dedupSeen_not_mem : ∀ (us seen : List Json) (u : Json),
    u ∈ dedupSeen seen us → u ∉ seen := by
  intro us
  induction us with
  | nil => intro seen u hu; simp [dedupSeen] at hu
  | cons v rest ih =>
      intro seen u hu
      by_cases hmem : v ∈ seen
      · rw [dedupSeen_cons_mem hmem] at hu
        exact ih seen u hu
      · rw [dedupSeen_cons_not_mem hmem] at hu
        rcases List.mem_cons.mp hu with rfl | hu
        · exact hmem
        · intro hin
          exact ih (seen ++ [v]) u hu (List.mem_append.mpr (Or.inl hin))

/-- Deduplicated URL lists have no duplicates. -/
theorem dedupSeen_nodup : ∀ (us seen : List Json), (dedupSeen seen us).Nodup := by
  intro us
  induction us with
  | nil => intro seen; simp [dedupSeen]
  | cons v rest ih =>
      intro seen
      by_cases hmem : v ∈ seen
      · rw [dedupSeen_cons_mem hmem]
        exact ih seen
      · rw [dedupSeen_cons_not_mem hmem]
        refine List.Nodup.cons ?_ (ih (seen ++ [v]))
        intro hv
        exact dedupSeen_not_mem rest (seen ++ [v]) v hv (List.mem_append.mpr (Or.inr (by simp)))

/-- `_extract_sources_from_findings` records exactly the first-occurrence
deduplication of the findings' truthy source URLs, in order. -/
theorem extract_sources_urls (findings : List Json) :
    sourcesUsedUrls (extract_sources_from_findings findings) =
      dedupSeen [] (findingUrls findings) := by
  unfold extract_sources_from_findings
  simpa [sourcesUsedUrls] using extract_go_urls findings 1 [] [] rfl

/-- A successful `_parse_report_response` on non-empty findings yields a
report whose sources are recomputed from the findings and which carries no
error marker. -/
theorem parse_ok_fields (c : String) (findings : List Json) (r : RReport)
    (hne : findings ≠ [])
    (h : parse_report_response c findings = .ok (some r)) :
    r.sources_used = extract_sources_from_findings findings ∧ r.error = none := by
  unfold parse_report_response at h
  by_cases hcemp : String.mk (pyStrip c.data) = ""
  · rw [if_pos hcemp] at h
    simp at h
  · rw [if_neg hcemp] at h
    cases hp : parse_json_payload (String.mk (pyStrip c.data)) with
    | none => rw [hp] at h; simp at h
    | some parsed =>
        rw [hp] at h
        simp only at h
        split at h
        · simp at h
        · rename_i exec1 sections1 sources2 hv
          simp only [Except.ok.injEq, Option.some.injEq] at h
          subst h
          refine ⟨?_, rfl⟩
          unfold validate_report at hv
          rw [if_neg hne] at hv
          repeat' split at hv
          all_goals
            first
              | exact hv.2.2.symm
              | (simp only [Except.ok.injEq, Prod.mk.injEq] at hv
                 exact hv.2.2.symm)
              | simp at hv

/-- Path analysis of `write_report`: either a non-error report whose
sources are recomputed from the findings, or an error report with empty
sources. -/
theorem write_report_paths (findings : List Json) (llm repairLlm : Except String String) :
    ((write_report findings llm repairLlm).error = none ∧
     (write_report findings llm repairLlm).sources_used =
       extract_sources_from_findings findings) ∨
    ((write_report findings llm repairLlm).sources_used = [] ∧
     (write_report findings llm repairLlm).error ≠ none) := by
  unfold write_report
  by_cases hne : findings = []
  · rw [if_pos hne]
    exact Or.inr ⟨rfl, by simp [create_error_report]⟩
  · rw [if_neg hne]
    cases llm with
    | error e => exact Or.inr ⟨rfl, by simp [create_error_report]⟩
    | ok raw =>
        simp only
        cases hp : parse_report_response (String.mk (pyStrip raw.data)) findings with
        | error e =>
            simp only [hp]
            exact Or.inr ⟨rfl, by simp [create_error_report]⟩
        | ok o =>
            cases o with
            | some r =>
                simp only [hp]
                obtain ⟨hs, he⟩ := parse_ok_fields _ findings r hne hp
                exact Or.inl ⟨he, hs⟩
            | none =>
                simp only [hp]
                cases hp2 : parse_report_response
                    (repair_report_output (String.mk (pyStrip raw.data)) repairLlm)
                    findings with
                | error e2 =>
                    simp only [hp2]
                    exact Or.inr ⟨rfl, by simp [create_error_report]⟩
                | ok o2 =>
                    cases o2 with
                    | some r2 =>
                        simp only [hp2]
                        obtain ⟨hs, he⟩ := parse_ok_fields _ findings r2 hne hp2
                        exact Or.inl ⟨he, hs⟩
                    | none =>
                        simp only [hp2]
                        exact Or.inl ⟨rfl, rfl⟩

/-- C4 counterexample: when the writer's LLM call raises, `write_report`
returns the minimal error report whose `sources_used` is empty rather than
recomputed from the findings — so "sources_used is recomputed from the
findings (one entry per unique finding URL)" fails on that path, while the
subset property still holds trivially. -/
theorem writer_error_report_sources_not_recomputed :
    (write_report fxFindings (.error "LLM transport failure") (.error "x")).sources_used
      = [] ∧
    extract_sources_from_findings fxFindings ≠ [] ∧
    (write_report fxFindings (.error "LLM transport failure") (.error "x")).sources_used
      ≠ extract_sources_from_findings fxFindings := by
  refine ⟨rfl, by decide, by decide⟩

/-- C4 (amended): every URL in the `sources_used` of any report the writer
returns is a finding source URL (the subset invariant holds on every path);
on every path that does not end in the error report, `sources_used` is
recomputed from the findings with one entry per unique finding URL in
finding order; and the recomputation is exactly the first-occurrence
deduplication of the findings' URLs, hence duplicate-free. -/
theorem writer_sources_used_subset :
    (∀ (findings : List Json) (llm repairLlm : Except String String),
      ∀ u ∈ sourcesUsedUrls (write_report findings llm repairLlm).sources_used,
        u ∈ findingUrls findings) ∧
    (∀ (findings : List Json) (llm repairLlm : Except String String),
      (write_report findings llm repairLlm).error = none →
      (write_report findings llm repairLlm).sources_used =
        extract_sources_from_findings findings) ∧
    (∀ findings : List Json,
      sourcesUsedUrls (extract_sources_from_findings findings) =
        dedupSeen [] (findingUrls findings)) ∧
    (∀ findings : List Json,
      (sourcesUsedUrls (extract_sources_from_findings findings)).Nodup) := by
  have hsubex : ∀ findings : List Json,
      ∀ u ∈ sourcesUsedUrls (extract_sources_from_findings findings),
        u ∈ findingUrls findings := by
    intro findings u hu
    rw [extract_sources_urls] at hu
    exact (dedupSeen_sublist (findingUrls findings) []).mem hu
  refine ⟨?_, ?_, extract_sources_urls, ?_⟩
  · intro findings llm repairLlm u hu
    rcases write_report_paths findings llm repairLlm with ⟨_, hs⟩ | ⟨hs, _⟩
    · rw [hs] at hu
      exact hsubex findings u hu
    · rw [hs] at hu
      simp [sourcesUsedUrls] at hu
  · intro findings llm repairLlm herr
    rcases write_report_paths findings llm repairLlm with ⟨_, hs⟩ | ⟨_, hne⟩
    · exact hs
    · exact absurd herr hne
  · intro findings
    rw [extract_sources_urls]
    exact dedupSeen_nodup (findingUrls findings) []

/-- C4 witness: the subset and recomputation conclusions on a concrete
successful writer run. -/
theorem writer_sources_used_subset_witness :
    ((write_report fxFindings (.ok "no json content") (.error "x")).error = none ∧
     (write_report fxFindings (.ok "no json content") (.error "x")).sources_used =
       extract_sources_from_findings fxFindings) ∧
    (Json.str "https://example.com/source" ∈
      sourcesUsedUrls (write_report fxFindings (.ok "no json content") (.error "x")).sources_used ∧
     Json.str "https://example.com/source" ∈ findingUrls fxFindings) := by
  refine ⟨⟨rfl, ?_⟩, ⟨by decide, ?_⟩⟩
  · exact writer_sources_used_subset.2.1 fxFindings (.ok "no json content") (.error "x") rfl
  · exact writer_sources_used_subset.1 fxFindings (.ok "no json content") (.error "x")
      (Json.str "https://example.com/source") (by decide)

/-- The stopped branch of the run classification, as an equation. -/
theorem classify_run_stopped (res : GState) (flag : Bool)
    (h : flag = true ∨ res.status = "stopped") :
    classify_run res flag =
      { session_state := { res with status := "stopped" },
        persisted_status := "stopped",
        persisted_is_stopped := true,
        event := .stopped,
        saved_report := none } := by
  unfold classify_run
  rw [if_pos h]

/-- The error branch of the run classification, as an equation. -/
theorem classify_run_error (res : GState) (flag : Bool)
    (h1 : ¬ (flag = true ∨ res.status = "stopped"))
    (h2 : res.status = "error" ∨ res.final_report = none) :
    classify_run res flag =
      { session_state := { res with status := "error", error := some (match res.error with
          | some e => if e = "" then missingReportMsg else e
          | none => missingReportMsg) },
        persisted_status := "error",
        persisted_is_stopped := false,
        event := .errored,
        saved_report := none } := by
  unfold classify_run
  rw [if_neg h1, if_pos h2]

/-- The completed branch of the run classification, as an equation. -/
theorem classify_run_completed (res : GState) (flag : Bool)
    (h1 : ¬ (flag = true ∨ res.status = "stopped"))
    (h2 : ¬ (res.status = "error" ∨ res.final_report = none)) :
    classify_run res flag =
      { session_state := { res with status := "completed" },
        persisted_status := "completed",
        persisted_is_stopped := false,
        event := .completed,
        saved_report := res.final_report } := by
  unfold classify_run
  rw [if_neg h1, if_neg h2]

/-- C6 counterexample: a graph result that finished with a report while the
stop flag was observed is classified through the stopped branch, which
persists status "stopped" yet keeps the non-empty final report in the
session state — contradicting "no path leaves a non-empty final_report on a
session whose status is stopped or error". -/
theorem stopped_session_keeps_final_report :
    fxCompletedResult.status = "completed" ∧
    fxCompletedResult.final_report ≠ none ∧
    (classify_run fxCompletedResult true).session_state.status = "stopped" ∧
    (classify_run fxCompletedResult true).persisted_status = "stopped" ∧
    (classify_run fxCompletedResult true).session_state.final_report ≠ none := by
  refine ⟨rfl, by decide, rfl, rfl, by decide⟩

/-- C6 (amended): the writer node sets the final report together with
status "completed"; the Manager's completed classification implies a
non-empty final report in the session state (and is the only branch that
saves one), and a run with reported error or missing report is classified
as error without acquiring a report; but the stopped classification keeps
the returned state's report as-is, so "final_report populated ⟹ status
completed" fails when a stop lands after the writer finished. -/
theorem final_report_completed_correlation :
    (∀ (r : RReport) (s : GState),
      (writer_node r s).final_report = some r ∧ (writer_node r s).status = "completed") ∧
    (∀ (res : GState) (flag : Bool),
      (classify_run res flag).persisted_status = "completed" →
      (classify_run res flag).session_state.status = "completed" ∧
      (classify_run res flag).saved_report = res.final_report ∧
      res.final_report ≠ none) ∧
    (∀ (res : GState) (flag : Bool),
      ¬ (flag = true ∨ res.status = "stopped") →
      (res.status = "error" ∨ res.final_report = none) →
      (classify_run res flag).persisted_status = "error" ∧
      (classify_run res flag).event = .errored ∧
      (classify_run res flag).saved_report = none) ∧
    (∀ (res : GState) (flag : Bool),
      res.final_report = none →
      (classify_run res flag).session_state.final_report = none) := by
  refine ⟨fun r s => ⟨rfl, rfl⟩, ?_, ?_, ?_⟩
  · intro res flag h
    by_cases h1 : (flag = true ∨ res.status = "stopped")
    · rw [classify_run_stopped res flag h1] at h
      simp at h
    · by_cases h2 : (res.status = "error" ∨ res.final_report = none)
      · rw [classify_run_error res flag h1 h2] at h
        simp at h
      · rw [classify_run_completed res flag h1 h2]
        refine ⟨rfl, rfl, ?_⟩
        intro hnone
        exact h2 (Or.inr hnone)
  · intro res flag h1 h2
    rw [classify_run_error res flag h1 h2]
    exact ⟨rfl, rfl, rfl⟩
  · intro res flag hnone
    by_cases h1 : (flag = true ∨ res.status = "stopped")
    · rw [classify_run_stopped res flag h1]
      exact hnone
    · by_cases h2 : (res.status = "error" ∨ res.final_report = none)
      · rw [classify_run_error res flag h1 h2]
        exact hnone
      · exact absurd (Or.inr hnone) h2

/-- C6 witness: the completed classification on a concrete finished run
(stop flag down), and the error classification on a concrete report-less
run. -/
theorem final_report_completed_correlation_witness :
    ((classify_run fxCompletedResult false).persisted_status = "completed" ∧
     (classify_run fxCompletedResult false).session_state.status = "completed" ∧
     fxCompletedResult.final_report ≠ none) ∧
    ((classify_run (run_initial_state "q" "sess" "t0" defaultOptions []) false).persisted_status
        = "error" ∧
     (classify_run (run_initial_state "q" "sess" "t0" defaultOptions []) false).saved_report
        = none) := by
  constructor
  · have h := final_report_completed_correlation.2.1 fxCompletedResult false rfl
    exact ⟨rfl, h.1, h.2.2⟩
  · have h := final_report_completed_correlation.2.2.1
      (run_initial_state "q" "sess" "t0" defaultOptions []) false
      (by decide) (Or.inr rfl)
    exact ⟨h.1, h.2.2⟩

/-- Rendering literal-only segments reproduces the text. -/
theorem renderLink_chr_map (valid : List Json) (l : List Char) :
    renderLink valid (l.map LinkSeg.chr) = l := by
  induction l with
  | nil => rfl
  | cons c rest ih =>
      simp only [renderLink, List.map_cons, List.flatten_cons, renderLinkSeg] at ih ⊢
      rw [ih]
      rfl

/-- Rendering literal-only numeric segments reproduces the text. -/
theorem renderNum_chr_map (findings : List Json) (l : List Char) :
    renderNum findings (l.map NumSeg.chr) = l := by
  induction l with
  | nil => rfl
  | cons c rest ih =>
      simp only [renderNum, List.map_cons, List.flatten_cons, renderNumSeg] at ih ⊢
      rw [ih]
      rfl

/-- `validate_link_citations` agrees with scanning the text into segments
and keeping exactly the citations whose URL is valid. -/
theorem subLinkF_eq_render (valid : List Json) :
    ∀ (fuel : Nat) (l : List Char),
      subLinkF valid fuel l = renderLink valid (scanLinkF fuel l) := by
  intro fuel
  induction fuel with
  | zero => intro l; simp [subLinkF, scanLinkF, renderLink_chr_map]
  | succ fuel ih =>
      intro l
      cases l with
      | nil => rfl
      | cons c rest =>
          cases hm : matchLinkAt (c :: rest) with
          | none =>
              simp only [subLinkF, scanLinkF, hm, renderLink, List.map_cons,
                List.flatten_cons, renderLinkSeg]
              rw [ih rest]
              rfl
          | some triple =>
              obtain ⟨A, B, r3⟩ := triple
              by_cases hv : Json.str (String.mk B) ∈ valid
              · simp only [subLinkF, scanLinkF, hm, renderLink, List.map_cons,
                  List.flatten_cons, renderLinkSeg, if_pos hv]
                rw [ih r3]
                simp [renderLink, List.append_assoc]
              · simp only [subLinkF, scanLinkF, hm, renderLink, List.map_cons,
                  List.flatten_cons, renderLinkSeg, if_neg hv]
                rw [ih r3]
                rfl

/-- `convert_old_citations` agrees with scanning the text into segments and
applying the per-citation replacement rule. -/
theorem subNumF_eq_render (findings : List Json) :
    ∀ (fuel : Nat) (l : List Char),
      subNumF findings fuel l = renderNum findings (scanNumF fuel l) := by
  intro fuel
  induction fuel with
  | zero => intro l; simp [subNumF, scanNumF, renderNum_chr_map]
  | succ fuel ih =>
      intro l
      cases l with
      | nil => rfl
      | cons c rest =>
          cases hm : matchNumAt (c :: rest) with
          | none =>
              simp only [subNumF, scanNumF, hm, renderNum, List.map_cons,
                List.flatten_cons, renderNumSeg]
              rw [ih rest]
              rfl
          | some pair =>
              obtain ⟨D, r2⟩ := pair
              simp only [subNumF, scanNumF, hm, renderNum, List.map_cons,
                List.flatten_cons, renderNumSeg]
              rw [ih r2]
              rfl

set_option maxRecDepth 80000 in
/-- C5 counterexample: on a complete writer run whose LLM output parses,
the citation validator deletes the invalid citation `[🔗 d](bad)` from the
executive summary, but the deletion splices the surrounding text into the
new citation-shaped span `[🔗 t](u)` — so the final executive summary
contains citation URL "u", which is not among the findings' source URLs.
The "kept iff valid" rule therefore does not imply the claimed subset
property over the final text. -/
theorem citation_validator_splice_leak :
    (write_report fxSpliceFindings (.ok fxSpliceContent) (.error "x")).executive_summary
      = .str "[🔗 t](u)" ∧
    (write_report fxSpliceFindings (.ok fxSpliceContent) (.error "x")).error = none ∧
    citeUrls "[🔗 t](u)" = ["u"] ∧
    Json.str "u" ∉ findingUrls fxSpliceFindings ∧
    fixCitationsText fxSpliceFindings "[🔗 t][🔗 d](bad)(u)" = "[🔗 t](u)" := by
  refine ⟨by decide, rfl, by decide, by decide, by decide⟩

/-- C5 (amended): the validator's `re.sub` passes act segment-wise on the
scan of the text — each scanned link citation is kept exactly when its URL
is among the findings' source URLs (deleted otherwise), and each scanned
numeric citation `[N]` is replaced by `replaceOldCitation` (the link form
when `N` indexes a findings entry with a truthy URL, deletion otherwise);
the deletion splices can however create citation-shaped spans that the
passes never examined, so the subset property over the final text does not
follow (see the counterexample). -/
theorem citation_passes_kept_iff_valid :
    (∀ (valid : List Json) (l : List Char),
      subLinkF valid (l.length + 1) l = renderLink valid (scanLinkF (l.length + 1) l)) ∧
    (∀ (findings : List Json) (l : List Char),
      subNumF findings (l.length + 1) l = renderNum findings (scanNumF (l.length + 1) l)) ∧
    (∀ (valid : List Json) (A B : List Char), Json.str (String.mk B) ∈ valid →
      renderLinkSeg valid (.cite A B) =
        '[' :: linkEmoji :: (A ++ ']' :: '(' :: (B ++ [')']))) ∧
    (∀ (valid : List Json) (A B : List Char), Json.str (String.mk B) ∉ valid →
      renderLinkSeg valid (.cite A B) = []) ∧
    (∀ (findings : List Json) (D : List Char),
      renderNumSeg findings (.ncite D) = replaceOldCitation findings D) ∧
    (∀ (findings : List Json) (text : String),
      convert_old_citations findings text =
        String.mk (renderNum findings (scanNumF (text.data.length + 1) text.data))) ∧
    (∀ (findings : List Json) (text : String),
      fixCitationsText findings text =
        String.mk (renderLink (validUrlsOfFindings findings)
          (scanLinkF ((convert_old_citations findings text).data.length + 1)
            (convert_old_citations findings text).data))) := by
  refine ⟨fun valid l => subLinkF_eq_render valid (l.length + 1) l,
    fun findings l => subNumF_eq_render findings (l.length + 1) l,
    ?_, ?_, fun findings D => rfl, ?_, ?_⟩
  · intro valid A B hv
    simp [renderLinkSeg, hv]
  · intro valid A B hv
    simp [renderLinkSeg, hv]
  · intro findings text
    unfold convert_old_citations
    rw [subNumF_eq_render]
  · intro findings text
    unfold fixCitationsText validate_link_citations
    rw [subLinkF_eq_render]

/-- C5 witness: the keep and drop rules instantiated on concrete citations
against the concrete valid-URL set of the splice fixture. -/
theorem citation_passes_kept_iff_valid_witness :
    renderLinkSeg (validUrlsOfFindings fxSpliceFindings)
        (.cite " t".data "good".data) =
      '[' :: linkEmoji :: (" t".data ++ ']' :: '(' :: ("good".data ++ [')'])) ∧
    renderLinkSeg (validUrlsOfFindings fxSpliceFindings)
        (.cite " d".data "bad".data) = [] := by
  constructor
  · exact citation_passes_kept_iff_valid.2.2.1 (validUrlsOfFindings fxSpliceFindings)
      " t".data "good".data (by decide)
  · exact citation_passes_kept_iff_valid.2.2.2.1 (validUrlsOfFindings fxSpliceFindings)
      " t".data  "bad".data (by decide)
